import Mathlib

/-!
# Vertical plotter: geometry control

A shallow embedding of `src/grbl/geometry_control.c` and `geometry_control.h`
(the cable-length solver `Convert_Geometry` and the single-step tracker
`Geometry_system_position`) and theorems about them.

Numeric model.  A C `float`/`double`/`long double` is a `CFloat`: either `nan`
or an exact real number.  Rounding and the finite range of the machine formats
are idealised away; what is kept is the propagation of NaN (square root of a
negative number, any operation on a NaN, comparisons with a NaN being false).
A division by zero, which in C gives an infinity or a NaN, gives `nan` here.
Machine integers are unbounded (`ℤ`, `ℕ`); the conversion of a float to an
integer truncates toward zero (the conversion of a NaN, undefined in C, is 0).
The values read from the host (`settings`, `MACHINE_WIDTH`, the target) are finite
numbers. `MACHINE_WIDTH` and `get_direction_pin_mask` are not defined in the sources
and are parameters of the functions that use them.

Where the rounding of the machine formats changes what the code does (a square root
taken of a rounded radicand, a product truncated to an integer), the same source lines
are embedded a second time over `BFloat`, binary floating-point values with every
operation rounded as the C types prescribe; the definitions of that embedding carry the
suffix `_ieee` and are evaluated at concrete inputs.
-/

namespace VerticalPlotter

/-! ## Idealised floating-point values -/

/-- A floating-point value of the C program: NaN or an exact real. -/
inductive CFloat where
  | nan : CFloat
  | fin : ℝ → CFloat

namespace CFloat

/-- C `a + b`. -/
noncomputable def add : CFloat → CFloat → CFloat
  | fin a, fin b => fin (a + b)
  | _, _ => nan

/-- C `a - b`. -/
noncomputable def sub : CFloat → CFloat → CFloat
  | fin a, fin b => fin (a - b)
  | _, _ => nan

/-- C `a * b`. -/
noncomputable def mul : CFloat → CFloat → CFloat
  | fin a, fin b => fin (a * b)
  | _, _ => nan

/-- C `a / b`; a zero divisor gives `nan` in this model. -/
noncomputable def div : CFloat → CFloat → CFloat
  | fin a, fin b => if b = 0 then nan else fin (a / b)
  | _, _ => nan

/-- C unary `-a`. -/
noncomputable def neg : CFloat → CFloat
  | fin a => fin (-a)
  | nan => nan

noncomputable instance : Add CFloat := ⟨add⟩
noncomputable instance : Sub CFloat := ⟨sub⟩
noncomputable instance : Mul CFloat := ⟨mul⟩
noncomputable instance : Div CFloat := ⟨div⟩
noncomputable instance : Neg CFloat := ⟨neg⟩

/-- C `sqrt`: NaN on a negative argument. -/
noncomputable def sqrt : CFloat → CFloat
  | fin a => if a < 0 then nan else fin (Real.sqrt a)
  | nan => nan

/-- C `hypot` / `hypotf`. -/
noncomputable def hypot : CFloat → CFloat → CFloat
  | fin a, fin b => fin (Real.sqrt (a ^ 2 + b ^ 2))
  | _, _ => nan

/-- C `fabs`. -/
noncomputable def fabs : CFloat → CFloat
  | fin a => fin |a|
  | nan => nan

/-- C `floor`. -/
noncomputable def floor : CFloat → CFloat
  | fin a => fin (⌊a⌋ : ℤ)
  | nan => nan

/-- C `ceil`. -/
noncomputable def ceil : CFloat → CFloat
  | fin a => fin (⌈a⌉ : ℤ)
  | nan => nan

/-- C `a < b`: false as soon as one side is NaN. -/
def lt : CFloat → CFloat → Prop
  | fin a, fin b => a < b
  | _, _ => False

noncomputable instance lt_decidable (a b : CFloat) : Decidable (lt a b) :=
  Classical.propDecidable _

/-- Truncation of a real toward zero. -/
noncomputable def truncR (r : ℝ) : ℤ := if 0 ≤ r then ⌊r⌋ else ⌈r⌉

/-- C conversion of a floating value to a (long) integer: truncation toward
zero.  The conversion of a NaN is undefined in C; it is 0 here. -/
noncomputable def toInt : CFloat → ℤ
  | fin a => truncR a
  | nan => 0

/-- C conversion of an integer to a floating value. -/
noncomputable def ofInt (z : ℤ) : CFloat := fin (z : ℝ)

end CFloat

open CFloat

/-! ## Data model -/

/-- Number of axes of the host firmware (grbl): the arrays `from_M`, `to_M` of the
source have this literal size. -/
abbrev N_AXIS : ℕ := 3

/-- Axis index of motor M1. -/
abbrev X_AXIS : Fin N_AXIS := 0

/-- Axis index of motor M2. -/
abbrev Y_AXIS : Fin N_AXIS := 1

/-- Third axis of the host; carries no cable. -/
abbrev Z_AXIS : Fin N_AXIS := 2

/-- The `point` struct of `geometry_control.h`. -/
structure point where
  x : CFloat
  y : CFloat

/-- The fields of the host's `settings` the geometry code reads. -/
structure settings_t where
  steps_per_mm : Fin N_AXIS → ℝ
  homing_x : ℝ
  homing_y : ℝ

/-- The fields of the host's `plan_block_t` the geometry code writes. -/
structure plan_block_t where
  steps : Fin N_AXIS → ℕ
  step_event_count : ℕ
  direction_bits : ℕ
  millimeters : CFloat

/-- Everything `Convert_Geometry` can read or write: the host's `sys.position`
and the five arguments (the arrays are passed by pointer). -/
structure State where
  sys_position : Fin N_AXIS → ℤ
  planner_position : Fin N_AXIS → ℤ
  target : Fin N_AXIS → ℝ
  block : plan_block_t
  unit_vec : Fin N_AXIS → CFloat
  target_steps : Fin N_AXIS → ℤ

/-! ## Macros of `geometry_control.h` -/

/-- Macro `TO_NEW_GEOMETRY(point)`: native frame to machine frame. -/
noncomputable def TO_NEW_GEOMETRY (settings : settings_t) (p : point) : point :=
  { x := p.x + fin settings.homing_x
    y := -(p.y - fin settings.homing_y) }

/-- Macro `TO_OLD_GEOMETRY(point)`: machine frame to native frame. -/
noncomputable def TO_OLD_GEOMETRY (settings : settings_t) (p : point) : point :=
  { x := p.x - fin settings.homing_x
    y := -(p.y) + fin settings.homing_y }

/-- Macro `SEMI_PERIMETER(a,b,c)`. -/
noncomputable def SEMI_PERIMETER (a b c : CFloat) : CFloat :=
  fin 0.5 * (a + b + c)

/-- Macro `AREA(s,a,b,c)`: the formula of Heron. -/
noncomputable def AREA (s a b c : CFloat) : CFloat :=
  sqrt (s * (s - a) * (s - b) * (s - c))

/-- The triangle reconstruction, lines 114-117 of `Convert_Geometry` taken on their
own: the apex of the triangle with sides `d1` (to M1), `d2` (to M2) and base
`MACHINE_WIDTH`. -/
noncomputable def reconstruct (MACHINE_WIDTH : ℝ) (d1 d2 : CFloat) : point :=
  let s := SEMI_PERIMETER (fabs d1) (fabs d2) (fin MACHINE_WIDTH)
  let area := AREA s (fabs d1) (fabs d2) (fin MACHINE_WIDTH)
  let _y := fin 2 * area / fin MACHINE_WIDTH
  let _x := sqrt (d1 * d1 - _y * _y)
  { x := _x, y := _y }

/-! ## `Convert_Geometry` -/

/-- Lines 75 and 77: the current position in millimetres, machine frame. -/
noncomputable def Convert_Geometry.from_p (settings : settings_t)
    (planner_position : Fin N_AXIS → ℤ) : point :=
  TO_NEW_GEOMETRY settings
    { x := ofInt (planner_position X_AXIS) / fin (settings.steps_per_mm X_AXIS)
      y := ofInt (planner_position Y_AXIS) / fin (settings.steps_per_mm Y_AXIS) }

/-- Lines 76 and 78: the target, machine frame. -/
noncomputable def Convert_Geometry.to_p (settings : settings_t)
    (target : Fin N_AXIS → ℝ) : point :=
  TO_NEW_GEOMETRY settings { x := fin (target X_AXIS), y := fin (target Y_AXIS) }

/-- Lines 80-84: cable lengths of the current position. -/
noncomputable def Convert_Geometry.from_M (settings : settings_t) (MACHINE_WIDTH : ℝ)
    (planner_position : Fin N_AXIS → ℤ) : Fin 3 → CFloat :=
  ![hypot (Convert_Geometry.from_p settings planner_position).x
      (Convert_Geometry.from_p settings planner_position).y,
    hypot (fin MACHINE_WIDTH - (Convert_Geometry.from_p settings planner_position).x)
      (Convert_Geometry.from_p settings planner_position).y,
    fin 0]

/-- Lines 85-89: continuous cable lengths of the target. -/
noncomputable def Convert_Geometry.to_M (settings : settings_t) (MACHINE_WIDTH : ℝ)
    (target : Fin N_AXIS → ℝ) : Fin 3 → CFloat :=
  ![hypot (Convert_Geometry.to_p settings target).x (Convert_Geometry.to_p settings target).y,
    hypot (fin MACHINE_WIDTH - (Convert_Geometry.to_p settings target).x)
      (Convert_Geometry.to_p settings target).y,
    fin 0]

/-- Lines 97-100: the floor and the ceil candidate of the delta of motor M1. -/
noncomputable def Convert_Geometry.dM1_p (settings : settings_t) (MACHINE_WIDTH : ℝ)
    (planner_position : Fin N_AXIS → ℤ) (target : Fin N_AXIS → ℝ) : Fin 2 → CFloat :=
  ![floor ((Convert_Geometry.to_M settings MACHINE_WIDTH target X_AXIS
        - Convert_Geometry.from_M settings MACHINE_WIDTH planner_position X_AXIS)
        * fin (settings.steps_per_mm X_AXIS)) / fin (settings.steps_per_mm X_AXIS),
    ceil ((Convert_Geometry.to_M settings MACHINE_WIDTH target X_AXIS
        - Convert_Geometry.from_M settings MACHINE_WIDTH planner_position X_AXIS)
        * fin (settings.steps_per_mm X_AXIS)) / fin (settings.steps_per_mm X_AXIS)]

/-- Lines 101-104: the floor and the ceil candidate of the delta of motor M2. -/
noncomputable def Convert_Geometry.dM2_p (settings : settings_t) (MACHINE_WIDTH : ℝ)
    (planner_position : Fin N_AXIS → ℤ) (target : Fin N_AXIS → ℝ) : Fin 2 → CFloat :=
  ![floor ((Convert_Geometry.to_M settings MACHINE_WIDTH target Y_AXIS
        - Convert_Geometry.from_M settings MACHINE_WIDTH planner_position Y_AXIS)
        * fin (settings.steps_per_mm Y_AXIS)) / fin (settings.steps_per_mm Y_AXIS),
    ceil ((Convert_Geometry.to_M settings MACHINE_WIDTH target Y_AXIS
        - Convert_Geometry.from_M settings MACHINE_WIDTH planner_position Y_AXIS)
        * fin (settings.steps_per_mm Y_AXIS)) / fin (settings.steps_per_mm Y_AXIS)]

/-- What one pass of the inner loop body computes (lines 108-118). -/
structure Candidate where
  _to_M : Fin 2 → CFloat
  _x : CFloat
  _y : CFloat
  _ERROR : CFloat

/-- Lines 114-118 for given candidate lengths `_to_M` and target point `to` (here `to_pt`). -/
noncomputable def Convert_Geometry.evaluate (MACHINE_WIDTH : ℝ) (to_pt : point)
    (_to_M : Fin 2 → CFloat) : Candidate :=
  let s := SEMI_PERIMETER (fabs (_to_M 0)) (fabs (_to_M 1)) (fin MACHINE_WIDTH)
  let area := AREA s (fabs (_to_M 0)) (fabs (_to_M 1)) (fin MACHINE_WIDTH)
  let _y := fin 2 * area / fin MACHINE_WIDTH
  let _x := sqrt (_to_M 0 * _to_M 0 - _y * _y)
  let _ERROR := hypot (fabs (_x - to_pt.x)) (fabs (_y - to_pt.y))
  { _to_M := _to_M, _x := _x, _y := _y, _ERROR := _ERROR }

/-- Lines 108-118: the candidate of loop indices `i` (motor M1) and `j` (motor M2). -/
noncomputable def Convert_Geometry.candidate (settings : settings_t) (MACHINE_WIDTH : ℝ)
    (planner_position : Fin N_AXIS → ℤ) (target : Fin N_AXIS → ℝ) (i j : Fin 2) : Candidate :=
  Convert_Geometry.evaluate MACHINE_WIDTH (Convert_Geometry.to_p settings target)
    ![Convert_Geometry.from_M settings MACHINE_WIDTH planner_position X_AXIS
        + Convert_Geometry.dM1_p settings MACHINE_WIDTH planner_position target i,
      Convert_Geometry.from_M settings MACHINE_WIDTH planner_position Y_AXIS
        + Convert_Geometry.dM2_p settings MACHINE_WIDTH planner_position target j]

/-- The variables the search loop updates: `ERROR`, `to_M` and `_NEW`. -/
structure SearchState where
  ERROR : CFloat
  to_M : Fin 3 → CFloat
  _NEW : point

/-- Lines 119-125: adopt the candidate when its error is strictly smaller. -/
noncomputable def Convert_Geometry.search_step (st : SearchState) (c : Candidate) :
    SearchState :=
  if lt c._ERROR st.ERROR then
    { ERROR := c._ERROR
      to_M := ![c._to_M 0, c._to_M 1, st.to_M 2]
      _NEW := { x := c._x, y := c._y } }
  else st

/-- The order in which the two nested loops visit the index pairs. -/
def Convert_Geometry.order : List (Fin 2 × Fin 2) := [(0, 0), (0, 1), (1, 0), (1, 1)]

/-- Lines 90 and 105: the state before the loops. -/
noncomputable def Convert_Geometry.search_init (settings : settings_t) (MACHINE_WIDTH : ℝ)
    (target : Fin N_AXIS → ℝ) : SearchState :=
  { ERROR := fin 100000
    to_M := Convert_Geometry.to_M settings MACHINE_WIDTH target
    _NEW := { x := fin 0, y := fin 0 } }

/-- Lines 90-128: the search over the four candidates. -/
noncomputable def Convert_Geometry.search (settings : settings_t) (MACHINE_WIDTH : ℝ)
    (planner_position : Fin N_AXIS → ℤ) (target : Fin N_AXIS → ℝ) : SearchState :=
  (Convert_Geometry.order.map fun ij =>
      Convert_Geometry.candidate settings MACHINE_WIDTH planner_position target ij.1 ij.2).foldl
    Convert_Geometry.search_step (Convert_Geometry.search_init settings MACHINE_WIDTH target)

/-- Lines 134-145: the body of the loop over the axes. `from_M`, `to_M` and `_NEW`
are the values after the search (`_NEW` already in the native frame). -/
noncomputable def Convert_Geometry.axis_body (settings : settings_t)
    (get_direction_pin_mask : Fin N_AXIS → ℕ) (from_M to_M : Fin 3 → CFloat) (_NEW : point)
    (st : State) (idx : Fin N_AXIS) : State :=
  let delta_mm := to_M idx - from_M idx
  let steps := (toInt (delta_mm * fin (settings.steps_per_mm idx))).natAbs
  { st with
    target_steps := Function.update st.target_steps idx
      (toInt ((_NEW.x * fin (if idx = X_AXIS then 1 else 0)
        + _NEW.y * fin (if idx = Y_AXIS then 1 else 0)) * fin (settings.steps_per_mm idx)))
    block :=
      { steps := Function.update st.block.steps idx steps
        step_event_count := max st.block.step_event_count steps
        direction_bits :=
          if lt delta_mm (fin 0) then st.block.direction_bits ||| get_direction_pin_mask idx
          else st.block.direction_bits
        millimeters := st.block.millimeters + delta_mm * delta_mm }
    unit_vec := Function.update st.unit_vec idx delta_mm }

/-- The function `Convert_Geometry` of `geometry_control.c`. `MACHINE_WIDTH` and the
host's `get_direction_pin_mask` are not part of the sources and are parameters. -/
noncomputable def Convert_Geometry (settings : settings_t) (MACHINE_WIDTH : ℝ)
    (get_direction_pin_mask : Fin N_AXIS → ℕ) (st : State) : State :=
  let st1 : State :=
    { st with
      sys_position := Function.update
        (Function.update st.sys_position X_AXIS (st.planner_position X_AXIS))
        Y_AXIS (st.planner_position Y_AXIS) }
  let from_M := Convert_Geometry.from_M settings MACHINE_WIDTH st.planner_position
  let found := Convert_Geometry.search settings MACHINE_WIDTH st.planner_position st.target
  let st2 : State := { st1 with block := { st1.block with millimeters := fin 0 } }
  let st3 := [X_AXIS, Y_AXIS, Z_AXIS].foldl
    (Convert_Geometry.axis_body settings get_direction_pin_mask from_M found.to_M
      (TO_OLD_GEOMETRY settings found._NEW)) st2
  { st3 with block := { st3.block with millimeters := sqrt st3.block.millimeters } }

/-! ## `Geometry_system_position` -/

/-- Lines 166-167: the tracked position in millimetres, machine frame. -/
noncomputable def Geometry_system_position.from_p (settings : settings_t)
    (sys_position : Fin N_AXIS → CFloat) : point :=
  TO_NEW_GEOMETRY settings
    { x := sys_position X_AXIS / fin (settings.steps_per_mm X_AXIS)
      y := sys_position Y_AXIS / fin (settings.steps_per_mm Y_AXIS) }

/-- Lines 168-172. -/
noncomputable def Geometry_system_position.from_M (settings : settings_t) (MACHINE_WIDTH : ℝ)
    (sys_position : Fin N_AXIS → CFloat) : Fin 3 → CFloat :=
  ![hypot (Geometry_system_position.from_p settings sys_position).x
      (Geometry_system_position.from_p settings sys_position).y,
    hypot (fin MACHINE_WIDTH - (Geometry_system_position.from_p settings sys_position).x)
      (Geometry_system_position.from_p settings sys_position).y,
    fin 0]

/-- Lines 173-177: one step more or less of cable on the motor `axis`. -/
noncomputable def Geometry_system_position.to_M (settings : settings_t) (MACHINE_WIDTH : ℝ)
    (axis : Fin N_AXIS) (direction : Bool) (sys_position : Fin N_AXIS → CFloat) :
    Fin 3 → CFloat :=
  ![Geometry_system_position.from_M settings MACHINE_WIDTH sys_position X_AXIS
      + ofInt ((if direction then 1 else -1) * (if axis = X_AXIS then 1 else 0))
        / fin (settings.steps_per_mm X_AXIS),
    Geometry_system_position.from_M settings MACHINE_WIDTH sys_position Y_AXIS
      + ofInt ((if direction then 1 else -1) * (if axis = Y_AXIS then 1 else 0))
        / fin (settings.steps_per_mm Y_AXIS),
    fin 0]

/-- Lines 178-182: the reconstructed point `to`, machine frame. -/
noncomputable def Geometry_system_position.to_p (settings : settings_t) (MACHINE_WIDTH : ℝ)
    (axis : Fin N_AXIS) (direction : Bool) (sys_position : Fin N_AXIS → CFloat) : point :=
  let to_M := Geometry_system_position.to_M settings MACHINE_WIDTH axis direction sys_position
  let to_Semi_Perimeter :=
    SEMI_PERIMETER (fabs (to_M X_AXIS)) (fabs (to_M Y_AXIS)) (fin MACHINE_WIDTH)
  let to_Area :=
    AREA to_Semi_Perimeter (fabs (to_M X_AXIS)) (fabs (to_M Y_AXIS)) (fin MACHINE_WIDTH)
  let y := (to_Area * fin 2) / fin MACHINE_WIDTH
  { x := sqrt (to_M X_AXIS * to_M X_AXIS - y * y), y := y }

/-- The function `Geometry_system_position` of `geometry_control.c`; the result is
the array `sys_position` after the call. -/
noncomputable def Geometry_system_position (settings : settings_t) (MACHINE_WIDTH : ℝ)
    (axis : Fin N_AXIS) (direction : Bool) (sys_position : Fin N_AXIS → CFloat) :
    Fin N_AXIS → CFloat :=
  let from_o := TO_OLD_GEOMETRY settings (Geometry_system_position.from_p settings sys_position)
  let to_o := TO_OLD_GEOMETRY settings
    (Geometry_system_position.to_p settings MACHINE_WIDTH axis direction sys_position)
  if axis = X_AXIS then
    Function.update
      (Function.update sys_position X_AXIS
        (sys_position X_AXIS + (to_o.x - from_o.x) * fin (settings.steps_per_mm X_AXIS)))
      Y_AXIS (sys_position Y_AXIS + (to_o.y - from_o.y) * fin (settings.steps_per_mm Y_AXIS))
  else
    Function.update
      (Function.update sys_position X_AXIS
        (sys_position X_AXIS + (to_o.x - from_o.x) * fin (settings.steps_per_mm X_AXIS)))
      Y_AXIS (sys_position Y_AXIS + (to_o.y - from_o.y) * fin (settings.steps_per_mm Y_AXIS))

/-! ## Closed forms used in the statements -/

/-- The radicand of Heron's formula as `SEMI_PERIMETER` and `AREA` expand it. -/
noncomputable def heron (a b c : ℝ) : ℝ :=
  0.5 * (a + b + c) * (0.5 * (a + b + c) - a) * (0.5 * (a + b + c) - b)
    * (0.5 * (a + b + c) - c)

/-- Steps per millimetre of motor `m` (0 is M1, 1 is M2). -/
def motor_spm (settings : settings_t) : Fin 2 → ℝ :=
  ![settings.steps_per_mm X_AXIS, settings.steps_per_mm Y_AXIS]

/-- Machine-frame abscissa of the current position, as a real. -/
noncomputable def fromX (settings : settings_t) (pp : Fin N_AXIS → ℤ) : ℝ :=
  (pp X_AXIS : ℝ) / settings.steps_per_mm X_AXIS + settings.homing_x

/-- Machine-frame ordinate of the current position, as a real. -/
noncomputable def fromY (settings : settings_t) (pp : Fin N_AXIS → ℤ) : ℝ :=
  -((pp Y_AXIS : ℝ) / settings.steps_per_mm Y_AXIS - settings.homing_y)

/-- Machine-frame abscissa of the target, as a real. -/
def toX (settings : settings_t) (target : Fin N_AXIS → ℝ) : ℝ :=
  target X_AXIS + settings.homing_x

/-- Machine-frame ordinate of the target, as a real. -/
def toY (settings : settings_t) (target : Fin N_AXIS → ℝ) : ℝ :=
  -(target Y_AXIS - settings.homing_y)

/-- The two cable lengths of the machine-frame point `(x, y)`. -/
noncomputable def cable (W x y : ℝ) : Fin 2 → ℝ :=
  ![Real.sqrt (x ^ 2 + y ^ 2), Real.sqrt ((W - x) ^ 2 + y ^ 2)]

/-- The continuous cable-length delta of motor `m`: `to_M[m] - from_M[m]` before the
search. -/
noncomputable def contDelta (settings : settings_t) (W : ℝ) (pp : Fin N_AXIS → ℤ)
    (target : Fin N_AXIS → ℝ) (m : Fin 2) : ℝ :=
  cable W (toX settings target) (toY settings target) m
    - cable W (fromX settings pp) (fromY settings pp) m

/-- The integer step count of the candidate `r` (0 is floor, 1 is ceil) of motor `m`. -/
noncomputable def stepCount (settings : settings_t) (W : ℝ) (pp : Fin N_AXIS → ℤ)
    (target : Fin N_AXIS → ℝ) (m r : Fin 2) : ℤ :=
  ![⌊contDelta settings W pp target m * motor_spm settings m⌋,
    ⌈contDelta settings W pp target m * motor_spm settings m⌉] r

/-- The cable length of motor `m` for the candidate whose rounding on that motor is
`r`: `from_M[m]` plus the quantized delta. -/
noncomputable def candLen (settings : settings_t) (W : ℝ) (pp : Fin N_AXIS → ℤ)
    (target : Fin N_AXIS → ℝ) (m r : Fin 2) : ℝ :=
  cable W (fromX settings pp) (fromY settings pp) m
    + (stepCount settings W pp target m r : ℝ) / motor_spm settings m

/-- Settings with one step per millimetre and the home offset `(0, 0)`. -/
def unit_settings : settings_t :=
  { steps_per_mm := fun _ => 1, homing_x := 0, homing_y := 0 }

/-- The step position `(0, 0, 0)`. -/
def origin_steps : Fin N_AXIS → ℤ := fun _ => 0

/-- The cable-length delta `to_M[idx] - from_M[idx]` the loop over the axes uses:
`to_M` as the search left it. -/
noncomputable def Convert_Geometry.delta_mm (settings : settings_t) (W : ℝ)
    (pp : Fin N_AXIS → ℤ) (target : Fin N_AXIS → ℝ) (idx : Fin N_AXIS) : CFloat :=
  (Convert_Geometry.search settings W pp target).to_M idx
    - Convert_Geometry.from_M settings W pp idx

/-- Constant `X_DIRECTION_BIT` of `cpu_map_vertical_plotter.h`. -/
def X_DIRECTION_BIT : ℕ := 4

/-- Constant `Y_DIRECTION_BIT` of `cpu_map_vertical_plotter.h`. -/
def Y_DIRECTION_BIT : ℕ := 6

/-- A direction mask function for the examples: the host's `get_direction_pin_mask` on
the direction bits of `cpu_map_vertical_plotter.h`, with bit 7 for the third axis (the
map defines none for it). -/
def sample_direction_pin_mask (idx : Fin N_AXIS) : ℕ :=
  if idx = X_AXIS then 1 <<< X_DIRECTION_BIT
  else if idx = Y_AXIS then 1 <<< Y_DIRECTION_BIT
  else 1 <<< 7

/-- An incoming state for the examples: current steps `(0, 0, 0)`, the given target,
and a block record with the given `direction_bits` and `step_event_count`. -/
def sample_state (target : Fin N_AXIS → ℝ) (direction_bits step_event_count : ℕ) : State :=
  { sys_position := origin_steps
    planner_position := origin_steps
    target := target
    block :=
      { steps := fun _ => 0
        step_event_count := step_event_count
        direction_bits := direction_bits
        millimeters := fin 0 }
    unit_vec := fun _ => fin 0
    target_steps := origin_steps }

/-- What adopting the candidate `c` leaves in the search state `r`, seen from the
state `st` the search started in. -/
def Adopted (st r : SearchState) (c : Candidate) : Prop :=
  r.ERROR = c._ERROR ∧ r._NEW = { x := c._x, y := c._y } ∧ r.to_M 0 = c._to_M 0
    ∧ r.to_M 1 = c._to_M 1 ∧ r.to_M 2 = st.to_M 2

/-- The settings of the scenarios of the specification: 80 steps per millimetre on
every axis, home offset `(500, 0)`; the machine width is 1000. -/
def scenario_settings : settings_t :=
  { steps_per_mm := fun _ => 80, homing_x := 500, homing_y := 0 }

/-- The target `(0, 50)` of the planned-move scenario. -/
def scenario_target : Fin N_AXIS → ℝ := ![0, 50, 0]

/-- The step counts 199 (floor) and 200 (ceil) of the planned-move scenario. -/
def scenario_count : Fin 2 → ℤ := ![199, 200]

/-- The tracked position `(0, 0, 0)` steps. -/
noncomputable def tracked_origin : Fin N_AXIS → CFloat := fun _ => fin 0

/-- The signed unit `(direction ? 1 : -1) * (axis == a)` of `Geometry_system_position`. -/
def step_unit (axis a : Fin N_AXIS) (direction : Bool) : ℤ :=
  (if direction then 1 else -1) * (if axis = a then 1 else 0)

/-- The position of the index pair `(i, j)` in the two nested loops of the search
(`i` is the outer loop, `j` the inner one): 0, 1, 2, 3. -/
def visit_rank (p : Fin 2 × Fin 2) : ℕ := 2 * p.1.val + p.2.val

/-- Settings with one step per millimetre and the home offset `(1/2, 0)`: the step
position `(0, 0)` is the machine-frame point `(1/2, 0)`, half a step from M1. -/
noncomputable def half_settings : settings_t :=
  { steps_per_mm := fun _ => 1, homing_x := 1 / 2, homing_y := 0 }

/-- The native-frame target `(-1/2, 0)`, which is the motor M1 under `half_settings`. -/
noncomputable def half_target : Fin N_AXIS → ℝ := ![-1 / 2, 0, 0]

/-- The four cable lengths of the candidates of the half-step example: motor and
rounding. -/
noncomputable def half_len (m r : Fin 2) : ℝ :=
  ![![-1 / 2, 1 / 2], ![1 / 2, 3 / 2]] m r

/-! ## Binary floating-point values

The same source lines evaluated with the rounding of the machine formats, for the
inputs at which rounding changes the outcome.  A C `float` is taken as binary32 (24
significant bits) and a `double` as binary64 (53 bits); every operation is rounded to
nearest, ties to even, in the type C gives the expression (a `float` operand meeting a
`double` is promoted, the product or quotient of two `float`s is a `float`; no excess
precision, no fused multiply-add); a `long double` variable holds the `double` result
assigned to it; `sqrt`, `hypot` and `hypotf` are correctly rounded; `MACHINE_WIDTH`, which
the sources do not define, is a `double` value.  The exponent range is unbounded: no
overflow, no subnormal numbers. -/

/-- A value of a binary floating-point format: NaN, or the finite number `m * 2 ^ e`. -/
inductive BFloat where
  | nan : BFloat
  | fin (m : ℤ) (e : ℤ) : BFloat
deriving DecidableEq

namespace BFloat

/-- Number of binary digits of `n`, by halving at most `fuel` times. -/
def bitsAux : ℕ → ℕ → ℕ
  | 0, _ => 0
  | fuel + 1, n => if n = 0 then 0 else bitsAux fuel (n / 2) + 1

/-- Number of binary digits of `n`. -/
def bitlen (n : ℕ) : ℕ := bitsAux n n

/-- Bisection for the integer square root: the largest `r` with `lo ≤ r < hi` and
`r * r ≤ n`, given `lo * lo ≤ n < hi * hi`. -/
def isqrtAux : ℕ → ℕ → ℕ → ℕ → ℕ
  | 0, _, lo, _ => lo
  | fuel + 1, n, lo, hi =>
    if hi ≤ lo + 1 then lo
    else if (lo + hi) / 2 * ((lo + hi) / 2) ≤ n then isqrtAux fuel n ((lo + hi) / 2) hi
    else isqrtAux fuel n lo ((lo + hi) / 2)

/-- Integer square root: the largest `r` with `r * r ≤ n`. -/
def isqrt (n : ℕ) : ℕ := isqrtAux (bitlen n + 1) n 0 (2 ^ (bitlen n / 2 + 1))

/-- The number `m * 2 ^ e` rounded to `p` significant bits, to nearest, ties to
even. -/
def round (p : ℕ) (m e : ℤ) : BFloat :=
  if bitlen m.natAbs ≤ p then fin m e
  else
    let sh := bitlen m.natAbs - p
    let q := m.natAbs / 2 ^ sh
    let r := m.natAbs % 2 ^ sh
    let h := 2 ^ (sh - 1)
    let q1 := if h < r ∨ (r = h ∧ q % 2 = 1) then q + 1 else q
    fin (if m < 0 then -(q1 : ℤ) else (q1 : ℤ)) (e + (sh : ℤ))

/-- Conversion to the format with `p` significant bits. -/
def cast (p : ℕ) : BFloat → BFloat
  | fin m e => round p m e
  | nan => nan

/-- The mantissa of `m * 2 ^ e` over the exponent `e0 ≤ e`. -/
def align (m e e0 : ℤ) : ℤ := m * 2 ^ (e - e0).toNat

/-- The exact sum `a + b`. -/
def sum : BFloat → BFloat → BFloat
  | fin m1 e1, fin m2 e2 =>
    fin (align m1 e1 (min e1 e2) + align m2 e2 (min e1 e2)) (min e1 e2)
  | _, _ => nan

/-- The exact product `a * b`. -/
def prod : BFloat → BFloat → BFloat
  | fin m1 e1, fin m2 e2 => fin (m1 * m2) (e1 + e2)
  | _, _ => nan

/-- C unary `-a`. -/
def neg : BFloat → BFloat
  | fin m e => fin (-m) e
  | nan => nan

/-- C `a + b` in the format with `p` significant bits. -/
def add (p : ℕ) (a b : BFloat) : BFloat := cast p (sum a b)

/-- C `a - b` in the format with `p` significant bits. -/
def sub (p : ℕ) (a b : BFloat) : BFloat := cast p (sum a (neg b))

/-- C `a * b` in the format with `p` significant bits. -/
def mul (p : ℕ) (a b : BFloat) : BFloat := cast p (prod a b)

/-- C `a / b` in the format with `p` significant bits; a zero divisor gives `nan` in
this model.  The quotient is taken to `p + 2` bits or more, followed by a sticky bit,
then rounded. -/
def div (p : ℕ) : BFloat → BFloat → BFloat
  | fin m1 e1, fin m2 e2 =>
    if m2 = 0 then nan
    else
      let k := p + 2 + bitlen m2.natAbs
      let n := m1.natAbs * 2 ^ k
      let q := 2 * (n / m2.natAbs) + (if n % m2.natAbs = 0 then 0 else 1)
      round p (if (m1 < 0) = (m2 < 0) then (q : ℤ) else -(q : ℤ)) (e1 - e2 - (k : ℤ) - 1)
  | _, _ => nan

/-- C `sqrt` in the format with `p` significant bits, correctly rounded; NaN on a
negative argument.  The root is taken to `p + 2` bits or more, followed by a sticky
bit, then rounded. -/
def sqrt (p : ℕ) : BFloat → BFloat
  | fin m e =>
    if m < 0 then nan
    else
      let s := e % 2
      let n := m.natAbs * 2 ^ (s.toNat + 2 * (p + 2))
      let r := isqrt n
      round p ((2 * r + (if r * r = n then 0 else 1) : ℕ) : ℤ)
        ((e - s) / 2 - ((p : ℤ) + 2) - 1)
  | nan => nan

/-- C `hypot` / `hypotf` in the format with `p` significant bits, correctly rounded. -/
def hypot (p : ℕ) (a b : BFloat) : BFloat := sqrt p (sum (prod a a) (prod b b))

/-- C `fabs`. -/
def fabs : BFloat → BFloat
  | fin m e => fin (m.natAbs : ℤ) e
  | nan => nan

/-- The integer part of `m * 2 ^ e`, rounded toward minus infinity. -/
def floorInt (m e : ℤ) : ℤ := if 0 ≤ e then m * 2 ^ e.toNat else m / 2 ^ (-e).toNat

/-- C `floor`. -/
def floor : BFloat → BFloat
  | fin m e => fin (floorInt m e) 0
  | nan => nan

/-- C `ceil`. -/
def ceil : BFloat → BFloat
  | fin m e => fin (-floorInt (-m) e) 0
  | nan => nan

/-- C `a < b`: false as soon as one side is NaN. -/
def lt : BFloat → BFloat → Bool
  | fin m1 e1, fin m2 e2 => decide (align m1 e1 (min e1 e2) < align m2 e2 (min e1 e2))
  | _, _ => false

/-- C `a <= b`: false as soon as one side is NaN. -/
def le : BFloat → BFloat → Bool
  | fin m1 e1, fin m2 e2 => decide (align m1 e1 (min e1 e2) ≤ align m2 e2 (min e1 e2))
  | _, _ => false

/-- C conversion of a floating value to a (long) integer: truncation toward zero.
The conversion of a NaN is undefined in C; it is 0 here. -/
def toInt : BFloat → ℤ
  | fin m e => if 0 ≤ m then floorInt m e else -floorInt (-m) e
  | nan => 0

/-- The integer `z` as a floating value, exactly. -/
def ofInt (z : ℤ) : BFloat := fin z 0

end BFloat

/-- Significant bits of a C `float` (binary32). -/
abbrev FLT_MANT_DIG : ℕ := 24

/-- Significant bits of a C `double` (binary64). -/
abbrev DBL_MANT_DIG : ℕ := 53

/-- The `point` struct of `geometry_control.h` with its two `double` fields as binary
values. -/
structure point_ieee where
  x : BFloat
  y : BFloat
deriving DecidableEq

/-- The fields of the host's `settings` the geometry code reads, `float` values. -/
structure settings_ieee where
  steps_per_mm : Fin N_AXIS → BFloat
  homing_x : BFloat
  homing_y : BFloat

/-- Macro `TO_NEW_GEOMETRY(point)` on `double` coordinates. -/
def TO_NEW_GEOMETRY_ieee (settings : settings_ieee) (p : point_ieee) : point_ieee :=
  { x := BFloat.add DBL_MANT_DIG p.x settings.homing_x
    y := BFloat.neg (BFloat.sub DBL_MANT_DIG p.y settings.homing_y) }

/-- Macro `TO_OLD_GEOMETRY(point)` on `double` coordinates. -/
def TO_OLD_GEOMETRY_ieee (settings : settings_ieee) (p : point_ieee) : point_ieee :=
  { x := BFloat.sub DBL_MANT_DIG p.x settings.homing_x
    y := BFloat.add DBL_MANT_DIG (BFloat.neg p.y) settings.homing_y }

/-- Macro `SEMI_PERIMETER(a,b,c)` on `double` operands: `0.5*(a+b+c)`. -/
def SEMI_PERIMETER_ieee (a b c : BFloat) : BFloat :=
  BFloat.mul DBL_MANT_DIG (BFloat.fin 1 (-1))
    (BFloat.add DBL_MANT_DIG (BFloat.add DBL_MANT_DIG a b) c)

/-- Macro `AREA(s,a,b,c)` on `double` operands: `sqrt(s*(s-a)*(s-b)*(s-c))`. -/
def AREA_ieee (s a b c : BFloat) : BFloat :=
  BFloat.sqrt DBL_MANT_DIG
    (BFloat.mul DBL_MANT_DIG
      (BFloat.mul DBL_MANT_DIG (BFloat.mul DBL_MANT_DIG s (BFloat.sub DBL_MANT_DIG s a))
        (BFloat.sub DBL_MANT_DIG s b))
      (BFloat.sub DBL_MANT_DIG s c))

/-- Lines 114-117 of `Convert_Geometry` in `double` arithmetic: the apex of the
triangle with sides `d1`, `d2` and base `MACHINE_WIDTH`. -/
def reconstruct_ieee (MACHINE_WIDTH d1 d2 : BFloat) : point_ieee :=
  let s := SEMI_PERIMETER_ieee (BFloat.fabs d1) (BFloat.fabs d2) MACHINE_WIDTH
  let area := AREA_ieee s (BFloat.fabs d1) (BFloat.fabs d2) MACHINE_WIDTH
  let _y := BFloat.div DBL_MANT_DIG (BFloat.mul DBL_MANT_DIG (BFloat.fin 2 0) area)
    MACHINE_WIDTH
  let _x := BFloat.sqrt DBL_MANT_DIG
    (BFloat.sub DBL_MANT_DIG (BFloat.mul DBL_MANT_DIG d1 d1) (BFloat.mul DBL_MANT_DIG _y _y))
  { x := _x, y := _y }

/-- Lines 75 and 77: the current position in millimetres, machine frame.  The
quotient of an `int32_t` by a `float` is a `float`. -/
def Convert_Geometry_ieee.from_p (settings : settings_ieee)
    (planner_position : Fin N_AXIS → ℤ) : point_ieee :=
  TO_NEW_GEOMETRY_ieee settings
    { x := BFloat.div FLT_MANT_DIG
        (BFloat.cast FLT_MANT_DIG (BFloat.ofInt (planner_position X_AXIS)))
        (settings.steps_per_mm X_AXIS)
      y := BFloat.div FLT_MANT_DIG
        (BFloat.cast FLT_MANT_DIG (BFloat.ofInt (planner_position Y_AXIS)))
        (settings.steps_per_mm Y_AXIS) }

/-- Lines 76 and 78: the target (an array of `float`), machine frame. -/
def Convert_Geometry_ieee.to_p (settings : settings_ieee) (target : Fin N_AXIS → BFloat) :
    point_ieee :=
  TO_NEW_GEOMETRY_ieee settings { x := target X_AXIS, y := target Y_AXIS }

/-- Lines 80-84: cable lengths of the current position, `double`. -/
def Convert_Geometry_ieee.from_M (settings : settings_ieee) (MACHINE_WIDTH : BFloat)
    (planner_position : Fin N_AXIS → ℤ) : Fin 3 → BFloat :=
  ![BFloat.hypot DBL_MANT_DIG (Convert_Geometry_ieee.from_p settings planner_position).x
      (Convert_Geometry_ieee.from_p settings planner_position).y,
    BFloat.hypot DBL_MANT_DIG
      (BFloat.sub DBL_MANT_DIG MACHINE_WIDTH
        (Convert_Geometry_ieee.from_p settings planner_position).x)
      (Convert_Geometry_ieee.from_p settings planner_position).y,
    BFloat.fin 0 0]

/-- Lines 85-89: continuous cable lengths of the target, `double`. -/
def Convert_Geometry_ieee.to_M (settings : settings_ieee) (MACHINE_WIDTH : BFloat)
    (target : Fin N_AXIS → BFloat) : Fin 3 → BFloat :=
  ![BFloat.hypot DBL_MANT_DIG (Convert_Geometry_ieee.to_p settings target).x
      (Convert_Geometry_ieee.to_p settings target).y,
    BFloat.hypot DBL_MANT_DIG
      (BFloat.sub DBL_MANT_DIG MACHINE_WIDTH (Convert_Geometry_ieee.to_p settings target).x)
      (Convert_Geometry_ieee.to_p settings target).y,
    BFloat.fin 0 0]

/-- The `double` product `(to_M[m] - from_M[m]) * settings.steps_per_mm[m]` of lines
98-103, of which the floor and the ceil are taken. -/
def Convert_Geometry_ieee.scaled (settings : settings_ieee) (MACHINE_WIDTH : BFloat)
    (planner_position : Fin N_AXIS → ℤ) (target : Fin N_AXIS → BFloat) (m : Fin N_AXIS) :
    BFloat :=
  BFloat.mul DBL_MANT_DIG
    (BFloat.sub DBL_MANT_DIG (Convert_Geometry_ieee.to_M settings MACHINE_WIDTH target m)
      (Convert_Geometry_ieee.from_M settings MACHINE_WIDTH planner_position m))
    (settings.steps_per_mm m)

/-- Lines 97-104: the floor and the ceil candidate of the delta of the motor `m`
(`dM1_p` for `X_AXIS`, `dM2_p` for `Y_AXIS`); each quotient is a `double`. -/
def Convert_Geometry_ieee.dM_p (settings : settings_ieee) (MACHINE_WIDTH : BFloat)
    (planner_position : Fin N_AXIS → ℤ) (target : Fin N_AXIS → BFloat) (m : Fin N_AXIS) :
    Fin 2 → BFloat :=
  ![BFloat.div DBL_MANT_DIG
      (BFloat.floor
        (Convert_Geometry_ieee.scaled settings MACHINE_WIDTH planner_position target m))
      (settings.steps_per_mm m),
    BFloat.div DBL_MANT_DIG
      (BFloat.ceil
        (Convert_Geometry_ieee.scaled settings MACHINE_WIDTH planner_position target m))
      (settings.steps_per_mm m)]

/-- The variables the search loop updates: `ERROR`, `to_M` and `_NEW`. -/
structure SearchState_ieee where
  ERROR : BFloat
  to_M : Fin 3 → BFloat
  _NEW : point_ieee

/-- Lines 108-125: one pass of the inner loop body, for the loop indices `i = ij.1` and
`j = ij.2`. -/
def Convert_Geometry_ieee.search_step (settings : settings_ieee) (MACHINE_WIDTH : BFloat)
    (planner_position : Fin N_AXIS → ℤ) (target : Fin N_AXIS → BFloat)
    (st : SearchState_ieee) (ij : Fin 2 × Fin 2) : SearchState_ieee :=
  let from_M := Convert_Geometry_ieee.from_M settings MACHINE_WIDTH planner_position
  let to_pt := Convert_Geometry_ieee.to_p settings target
  let dM1 := Convert_Geometry_ieee.dM_p settings MACHINE_WIDTH planner_position target
    X_AXIS ij.1
  let dM2 := Convert_Geometry_ieee.dM_p settings MACHINE_WIDTH planner_position target
    Y_AXIS ij.2
  let _to_M0 := BFloat.add DBL_MANT_DIG (from_M X_AXIS) dM1
  let _to_M1 := BFloat.add DBL_MANT_DIG (from_M Y_AXIS) dM2
  let p := reconstruct_ieee MACHINE_WIDTH _to_M0 _to_M1
  let _ERROR := BFloat.hypot DBL_MANT_DIG (BFloat.fabs (BFloat.sub DBL_MANT_DIG p.x to_pt.x))
    (BFloat.fabs (BFloat.sub DBL_MANT_DIG p.y to_pt.y))
  if BFloat.lt _ERROR st.ERROR then
    { ERROR := _ERROR, to_M := ![_to_M0, _to_M1, st.to_M 2], _NEW := p }
  else st

/-- Lines 90-128: the search over the four candidates, in the order of the two nested
loops. -/
def Convert_Geometry_ieee.search (settings : settings_ieee) (MACHINE_WIDTH : BFloat)
    (planner_position : Fin N_AXIS → ℤ) (target : Fin N_AXIS → BFloat) : SearchState_ieee :=
  Convert_Geometry.order.foldl
    (Convert_Geometry_ieee.search_step settings MACHINE_WIDTH planner_position target)
    { ERROR := BFloat.fin 100000 0
      to_M := Convert_Geometry_ieee.to_M settings MACHINE_WIDTH target
      _NEW := { x := BFloat.fin 0 0, y := BFloat.fin 0 0 } }

/-- Line 134: `delta_mm`, the `double` difference `to_M[idx] - from_M[idx]` stored in
a `float`. -/
def Convert_Geometry_ieee.delta_mm (settings : settings_ieee) (MACHINE_WIDTH : BFloat)
    (planner_position : Fin N_AXIS → ℤ) (target : Fin N_AXIS → BFloat) (idx : Fin N_AXIS) :
    BFloat :=
  BFloat.cast FLT_MANT_DIG
    (BFloat.sub DBL_MANT_DIG
      ((Convert_Geometry_ieee.search settings MACHINE_WIDTH planner_position target).to_M idx)
      (Convert_Geometry_ieee.from_M settings MACHINE_WIDTH planner_position idx))

/-- Line 136: `block->steps[idx]`, the `float` product `delta_mm *
settings.steps_per_mm[idx]` converted to `long` and passed to `labs`. -/
def Convert_Geometry_ieee.steps (settings : settings_ieee) (MACHINE_WIDTH : BFloat)
    (planner_position : Fin N_AXIS → ℤ) (target : Fin N_AXIS → BFloat) (idx : Fin N_AXIS) :
    ℕ :=
  (BFloat.toInt (BFloat.mul FLT_MANT_DIG
    (Convert_Geometry_ieee.delta_mm settings MACHINE_WIDTH planner_position target idx)
    (settings.steps_per_mm idx))).natAbs

/-- Lines 166-167: the tracked position in millimetres, machine frame.  The quotient
of two `float`s is a `float`. -/
def Geometry_system_position_ieee.from_p (settings : settings_ieee)
    (sys_position : Fin N_AXIS → BFloat) : point_ieee :=
  TO_NEW_GEOMETRY_ieee settings
    { x := BFloat.div FLT_MANT_DIG (sys_position X_AXIS) (settings.steps_per_mm X_AXIS)
      y := BFloat.div FLT_MANT_DIG (sys_position Y_AXIS) (settings.steps_per_mm Y_AXIS) }

/-- Lines 168-172: `hypotf` takes its arguments as `float`s and returns a `float`. -/
def Geometry_system_position_ieee.from_M (settings : settings_ieee)
    (MACHINE_WIDTH : BFloat) (sys_position : Fin N_AXIS → BFloat) : Fin 3 → BFloat :=
  ![BFloat.hypot FLT_MANT_DIG
      (BFloat.cast FLT_MANT_DIG (Geometry_system_position_ieee.from_p settings sys_position).x)
      (BFloat.cast FLT_MANT_DIG (Geometry_system_position_ieee.from_p settings sys_position).y),
    BFloat.hypot FLT_MANT_DIG
      (BFloat.cast FLT_MANT_DIG (BFloat.sub DBL_MANT_DIG MACHINE_WIDTH
        (Geometry_system_position_ieee.from_p settings sys_position).x))
      (BFloat.cast FLT_MANT_DIG (Geometry_system_position_ieee.from_p settings sys_position).y),
    BFloat.fin 0 0]

/-- Lines 173-177: one step more or less of cable on the motor `axis`; the quotient of
the integer `(direction ? 1 : -1) * (axis == a)` by a `float` and the sum are
`float`s. -/
def Geometry_system_position_ieee.to_M (settings : settings_ieee) (MACHINE_WIDTH : BFloat)
    (axis : Fin N_AXIS) (direction : Bool) (sys_position : Fin N_AXIS → BFloat) :
    Fin 3 → BFloat :=
  ![BFloat.add FLT_MANT_DIG
      (Geometry_system_position_ieee.from_M settings MACHINE_WIDTH sys_position X_AXIS)
      (BFloat.div FLT_MANT_DIG
        (BFloat.ofInt ((if direction then 1 else -1) * (if axis = X_AXIS then 1 else 0)))
        (settings.steps_per_mm X_AXIS)),
    BFloat.add FLT_MANT_DIG
      (Geometry_system_position_ieee.from_M settings MACHINE_WIDTH sys_position Y_AXIS)
      (BFloat.div FLT_MANT_DIG
        (BFloat.ofInt ((if direction then 1 else -1) * (if axis = Y_AXIS then 1 else 0)))
        (settings.steps_per_mm Y_AXIS)),
    BFloat.fin 0 0]

/-- Lines 178-182: the reconstructed point `to`, machine frame.  `to_Semi_Perimeter`
and `to_Area` are `float` variables that receive `double` results; the square
`to_M[X_AXIS] * to_M[X_AXIS]` is a `float` product. -/
def Geometry_system_position_ieee.to_p (settings : settings_ieee) (MACHINE_WIDTH : BFloat)
    (axis : Fin N_AXIS) (direction : Bool) (sys_position : Fin N_AXIS → BFloat) :
    point_ieee :=
  let to_M := Geometry_system_position_ieee.to_M settings MACHINE_WIDTH axis direction
    sys_position
  let to_Semi_Perimeter := BFloat.cast FLT_MANT_DIG
    (SEMI_PERIMETER_ieee (BFloat.fabs (to_M X_AXIS)) (BFloat.fabs (to_M Y_AXIS))
      MACHINE_WIDTH)
  let to_Area := BFloat.cast FLT_MANT_DIG
    (AREA_ieee to_Semi_Perimeter (BFloat.fabs (to_M X_AXIS)) (BFloat.fabs (to_M Y_AXIS))
      MACHINE_WIDTH)
  let y := BFloat.div DBL_MANT_DIG (BFloat.mul DBL_MANT_DIG to_Area (BFloat.fin 2 0))
    MACHINE_WIDTH
  { x := BFloat.sqrt DBL_MANT_DIG
      (BFloat.sub DBL_MANT_DIG (BFloat.mul FLT_MANT_DIG (to_M X_AXIS) (to_M X_AXIS))
        (BFloat.mul DBL_MANT_DIG y y))
    y := y }

/-- The function `Geometry_system_position` of `geometry_control.c` on the `float`
array `sys_position`: the array after the call (both branches of the final `if` are
the same two assignments). -/
def Geometry_system_position_ieee (settings : settings_ieee) (MACHINE_WIDTH : BFloat)
    (axis : Fin N_AXIS) (direction : Bool) (sys_position : Fin N_AXIS → BFloat) :
    Fin N_AXIS → BFloat :=
  let from_o := TO_OLD_GEOMETRY_ieee settings
    (Geometry_system_position_ieee.from_p settings sys_position)
  let to_o := TO_OLD_GEOMETRY_ieee settings
    (Geometry_system_position_ieee.to_p settings MACHINE_WIDTH axis direction sys_position)
  ![BFloat.cast FLT_MANT_DIG (BFloat.add DBL_MANT_DIG (sys_position X_AXIS)
      (BFloat.mul DBL_MANT_DIG (BFloat.sub DBL_MANT_DIG to_o.x from_o.x)
        (settings.steps_per_mm X_AXIS))),
    BFloat.cast FLT_MANT_DIG (BFloat.add DBL_MANT_DIG (sys_position Y_AXIS)
      (BFloat.mul DBL_MANT_DIG (BFloat.sub DBL_MANT_DIG to_o.y from_o.y)
        (settings.steps_per_mm Y_AXIS))),
    sys_position Z_AXIS]

/-- Settings as `float` values: `spm` steps per millimetre on every axis, home offset
`(500, 0)`. -/
def settings_of_spm (spm : ℤ) : settings_ieee :=
  { steps_per_mm := fun _ => BFloat.ofInt spm
    homing_x := BFloat.ofInt 500
    homing_y := BFloat.ofInt 0 }

/-- The machine width 1000. -/
def width_1000 : BFloat := BFloat.ofInt 1000

/-- The tracked position `(-40000, -24000, 0)` steps: at 80 steps per millimetre the
machine-frame point `(0, 300)`, straight below the motor M1. -/
def below_M1_position : Fin N_AXIS → BFloat :=
  ![BFloat.ofInt (-40000), BFloat.ofInt (-24000), BFloat.ofInt 0]

namespace CFloat

@[simp] theorem fin_add (a b : ℝ) : fin a + fin b = fin (a + b) := rfl
@[simp] theorem fin_sub (a b : ℝ) : fin a - fin b = fin (a - b) := rfl
@[simp] theorem fin_mul (a b : ℝ) : fin a * fin b = fin (a * b) := rfl
@[simp] theorem neg_fin (a : ℝ) : -fin a = fin (-a) := rfl
@[simp] theorem nan_add (a : CFloat) : nan + a = nan := rfl
@[simp] theorem add_nan (a : CFloat) : a + nan = nan := by cases a <;> rfl
@[simp] theorem nan_sub (a : CFloat) : nan - a = nan := rfl
@[simp] theorem sub_nan (a : CFloat) : a - nan = nan := by cases a <;> rfl
@[simp] theorem nan_mul (a : CFloat) : nan * a = nan := rfl
@[simp] theorem mul_nan (a : CFloat) : a * nan = nan := by cases a <;> rfl
@[simp] theorem nan_div (a : CFloat) : nan / a = nan := rfl
@[simp] theorem div_nan (a : CFloat) : a / nan = nan := by cases a <;> rfl
@[simp] theorem neg_nan : -nan = nan := rfl
@[simp] theorem sqrt_nan : sqrt nan = nan := rfl
@[simp] theorem fabs_nan : fabs nan = nan := rfl
@[simp] theorem fabs_fin (a : ℝ) : fabs (fin a) = fin |a| := rfl
@[simp] theorem floor_fin (a : ℝ) : floor (fin a) = fin (⌊a⌋ : ℤ) := rfl
@[simp] theorem ceil_fin (a : ℝ) : ceil (fin a) = fin (⌈a⌉ : ℤ) := rfl
@[simp] theorem hypot_fin (a b : ℝ) : hypot (fin a) (fin b) = fin (Real.sqrt (a ^ 2 + b ^ 2)) :=
  rfl
@[simp] theorem hypot_nan_left (a : CFloat) : hypot nan a = nan := rfl
@[simp] theorem hypot_nan_right (a : CFloat) : hypot a nan = nan := by cases a <;> rfl
@[simp] theorem lt_fin (a b : ℝ) : lt (fin a) (fin b) ↔ a < b := Iff.rfl
@[simp] theorem not_lt_nan_left (a : CFloat) : ¬ lt nan a := fun h => h
@[simp] theorem not_lt_nan_right (a : CFloat) : ¬ lt a nan := by cases a <;> exact fun h => h
@[simp] theorem toInt_fin (a : ℝ) : toInt (fin a) = truncR a := rfl
@[simp] theorem ofInt_eq (z : ℤ) : ofInt z = fin (z : ℝ) := rfl

theorem fin_div (a : ℝ) {b : ℝ} (h : b ≠ 0) : fin a / fin b = fin (a / b) := by
  show div (fin a) (fin b) = _
  simp [div, h]

theorem sqrt_fin_of_nonneg {a : ℝ} (h : 0 ≤ a) : sqrt (fin a) = fin (Real.sqrt a) := by
  simp [sqrt, not_lt.mpr h]

theorem sqrt_fin_of_neg {a : ℝ} (h : a < 0) : sqrt (fin a) = nan := by
  simp [sqrt, h]

theorem truncR_intCast (k : ℤ) : truncR (k : ℝ) = k := by
  unfold truncR
  split_ifs <;> simp

end CFloat

/-! ## The frame transforms -/

/-- C3. `TO_NEW_GEOMETRY` and `TO_OLD_GEOMETRY` are inverse to each other, for every
point (NaN coordinates included) and every home offset. -/
theorem frame_round_trip (settings : settings_t) (p : point) :
    TO_OLD_GEOMETRY settings (TO_NEW_GEOMETRY settings p) = p
      ∧ TO_NEW_GEOMETRY settings (TO_OLD_GEOMETRY settings p) = p := by
  obtain ⟨x, y⟩ := p
  constructor <;> cases x <;> cases y <;> simp [TO_OLD_GEOMETRY, TO_NEW_GEOMETRY]

/-! ## The triangle reconstruction -/

theorem heron_identity (a b c : ℝ) :
    16 * heron a b c = 4 * a ^ 2 * c ^ 2 - (a ^ 2 - b ^ 2 + c ^ 2) ^ 2 := by
  unfold heron
  ring

theorem heron_nonneg {a b c : ℝ} (h1 : c ≤ a + b) (h2 : b ≤ a + c) (h3 : a ≤ b + c) :
    0 ≤ heron a b c := by
  unfold heron
  have hs : 0 ≤ 0.5 * (a + b + c) := by linarith
  have ha : 0 ≤ 0.5 * (a + b + c) - a := by linarith
  have hb : 0 ≤ 0.5 * (a + b + c) - b := by linarith
  have hc : 0 ≤ 0.5 * (a + b + c) - c := by linarith
  exact mul_nonneg (mul_nonneg (mul_nonneg hs ha) hb) hc

/-- The radicand under the second square root of the reconstruction is a square. -/
theorem radicand_x {W d1 d2 : ℝ} (hW : 0 < W) (h : 0 ≤ heron |d1| |d2| W) :
    d1 * d1 - 2 * Real.sqrt (heron |d1| |d2| W) / W * (2 * Real.sqrt (heron |d1| |d2| W) / W)
      = ((d1 ^ 2 - d2 ^ 2 + W ^ 2) / (2 * W)) ^ 2 := by
  have hs := Real.mul_self_sqrt h
  have hid := heron_identity |d1| |d2| W
  rw [sq_abs, sq_abs] at hid
  have hW0 : W ≠ 0 := hW.ne.symm
  field_simp
  linear_combination (-(W * W)) * hid - 16 * (W * W) * hs

/-- Closed form of the reconstruction where the Heron radicand is not negative. -/
theorem reconstruct_fin {W d1 d2 : ℝ} (hW : 0 < W) (h : 0 ≤ heron |d1| |d2| W) :
    reconstruct W (fin d1) (fin d2)
      = { x := fin (|d1 ^ 2 - d2 ^ 2 + W ^ 2| / (2 * W))
          y := fin (2 * Real.sqrt (heron |d1| |d2| W) / W) } := by
  have hW0 : W ≠ 0 := hW.ne.symm
  have hr : sqrt (fin (heron |d1| |d2| W)) = fin (Real.sqrt (heron |d1| |d2| W)) :=
    sqrt_fin_of_nonneg h
  unfold heron at hr
  simp only [reconstruct, SEMI_PERIMETER, AREA, fabs_fin, fin_add, fin_mul, fin_sub, hr,
    fin_div _ hW0]
  have hx := radicand_x hW h
  unfold heron at hx
  rw [hx, sqrt_fin_of_nonneg (sq_nonneg _), Real.sqrt_sq_eq_abs, abs_div,
    abs_of_pos (by linarith : (0 : ℝ) < 2 * W)]
  rfl

theorem CFloat.mul_comm_fin (a b : CFloat) : a * b = b * a := by
  cases a <;> cases b <;> simp [mul_comm]

/-- The inner loop body of `Convert_Geometry` reconstructs with `reconstruct`. -/
theorem Convert_Geometry.evaluate_point (W : ℝ) (t : point) (m : Fin 2 → CFloat) :
    ({ x := (Convert_Geometry.evaluate W t m)._x, y := (Convert_Geometry.evaluate W t m)._y }
      : point) = reconstruct W (m 0) (m 1) := rfl

/-- Lines 178-182 of `Geometry_system_position` reconstruct with `reconstruct`. -/
theorem Geometry_system_position.to_p_eq (settings : settings_t) (W : ℝ) (axis : Fin N_AXIS)
    (direction : Bool) (sp : Fin N_AXIS → CFloat) :
    Geometry_system_position.to_p settings W axis direction sp
      = reconstruct W (Geometry_system_position.to_M settings W axis direction sp X_AXIS)
          (Geometry_system_position.to_M settings W axis direction sp Y_AXIS) := by
  simp only [Geometry_system_position.to_p, reconstruct, CFloat.mul_comm_fin _ (fin 2)]

theorem heron_neg {a b c : ℝ} (ha : 0 ≤ a) (hb : 0 ≤ b) (hc : 0 < c)
    (hv : a + b < c ∨ a + c < b ∨ b + c < a) : heron a b c < 0 := by
  unfold heron
  have hs : 0 < 0.5 * (a + b + c) := by linarith
  rcases hv with h | h | h
  · have h1 : 0 < 0.5 * (a + b + c) - a := by linarith
    have h2 : 0 < 0.5 * (a + b + c) - b := by linarith
    have h3 : 0.5 * (a + b + c) - c < 0 := by linarith
    exact mul_neg_of_pos_of_neg (mul_pos (mul_pos hs h1) h2) h3
  · have h1 : 0 < 0.5 * (a + b + c) - a := by linarith
    have h2 : 0.5 * (a + b + c) - b < 0 := by linarith
    have h3 : 0 < 0.5 * (a + b + c) - c := by linarith
    exact mul_neg_of_neg_of_pos (mul_neg_of_pos_of_neg (mul_pos hs h1) h2) h3
  · have h1 : 0.5 * (a + b + c) - a < 0 := by linarith
    have h2 : 0 < 0.5 * (a + b + c) - b := by linarith
    have h3 : 0 < 0.5 * (a + b + c) - c := by linarith
    exact mul_neg_of_neg_of_pos (mul_neg_of_neg_of_pos (mul_neg_of_pos_of_neg hs h1) h2) h3

/-- The reconstruction where the Heron radicand is negative: both coordinates NaN. -/
theorem reconstruct_nan {W d1 d2 : ℝ} (h : heron |d1| |d2| W < 0) :
    reconstruct W (fin d1) (fin d2) = { x := nan, y := nan } := by
  have hr : sqrt (fin (heron |d1| |d2| W)) = nan := sqrt_fin_of_neg h
  unfold heron at hr
  simp only [reconstruct, SEMI_PERIMETER, AREA, fabs_fin, fin_add, fin_mul, fin_sub, hr,
    mul_nan, nan_div, nan_mul, sub_nan, sqrt_nan]

/-- C4, as amended. When `width > 0` and the lengths `|d1|`, `|d2|`, `width` violate the
triangle inequality, the reconstruction reports nothing: it produces the point whose
two coordinates are NaN, the error of such a candidate is NaN, and the search loop of
`Convert_Geometry` passes over it without a change of state. -/
theorem unreachable_target_gives_nan (W d1 d2 : ℝ) (hW : 0 < W)
    (hv : |d1| + |d2| < W ∨ |d1| + W < |d2| ∨ |d2| + W < |d1|) :
    reconstruct W (fin d1) (fin d2) = { x := nan, y := nan }
      ∧ ∀ (t : point) (st : SearchState),
          (Convert_Geometry.evaluate W t ![fin d1, fin d2])._ERROR = nan
            ∧ Convert_Geometry.search_step st
                (Convert_Geometry.evaluate W t ![fin d1, fin d2]) = st := by
  have hn := reconstruct_nan (heron_neg (abs_nonneg d1) (abs_nonneg d2) hW hv)
  refine ⟨hn, fun t st => ?_⟩
  have hp := Convert_Geometry.evaluate_point W t ![fin d1, fin d2]
  simp only [Matrix.cons_val_zero, Matrix.cons_val_one, Matrix.head_cons, hn,
    point.mk.injEq] at hp
  have he : (Convert_Geometry.evaluate W t ![fin d1, fin d2])._ERROR = nan := by
    show hypot (fabs ((Convert_Geometry.evaluate W t ![fin d1, fin d2])._x - t.x))
      (fabs ((Convert_Geometry.evaluate W t ![fin d1, fin d2])._y - t.y)) = nan
    rw [hp.1]
    simp
  refine ⟨he, ?_⟩
  unfold Convert_Geometry.search_step
  rw [he]
  simp

/-- Witness of `unreachable_target_gives_nan`: `d1 = 1`, `d2 = 1`, `width = 10`. -/
theorem unreachable_target_gives_nan_witness :
    reconstruct 10 (fin 1) (fin 1) = { x := nan, y := nan }
      ∧ ∀ (t : point) (st : SearchState),
          (Convert_Geometry.evaluate 10 t ![fin 1, fin 1])._ERROR = nan
            ∧ Convert_Geometry.search_step st
                (Convert_Geometry.evaluate 10 t ![fin 1, fin 1]) = st :=
  unreachable_target_gives_nan 10 1 1 (by norm_num) (Or.inl (by norm_num))

/-- C4, counterexample. For `d1 = 0`, `d2 = 0`, `width = 10` the reconstruction signals
no failure: its result is the point with NaN coordinates. -/
theorem unreachable_target_counterexample :
    (reconstruct 10 (fin 0) (fin 0)).x = nan ∧ (reconstruct 10 (fin 0) (fin 0)).y = nan := by
  have h : heron |0| |0| 10 < 0 :=
    heron_neg (abs_nonneg 0) (abs_nonneg 0) (by norm_num) (Or.inl (by norm_num))
  rw [reconstruct_nan h]
  exact ⟨rfl, rfl⟩

/-! ## The search over the four candidates -/

theorem CFloat.lt_irrefl_fl (a : CFloat) : ¬ lt a a := by
  cases a <;> simp

theorem CFloat.lt_trans_fl {a b c : CFloat} (h1 : lt a b) (h2 : lt b c) : lt a c := by
  cases a with
  | nan => exact (not_lt_nan_left _ h1).elim
  | fin x =>
    cases b with
    | nan => exact (not_lt_nan_left _ h2).elim
    | fin y =>
      cases c with
      | nan => exact (not_lt_nan_right _ h2).elim
      | fin z => exact (lt_fin _ _).2 (((lt_fin _ _).1 h1).trans ((lt_fin _ _).1 h2))

/-- The loop invariant of the search, for any list of candidates: either no candidate
was below the initial error and the state is untouched, or the state is that of a
candidate below the initial error that no candidate of the list beats. -/
theorem Convert_Geometry.search_fold (l : List Candidate) (st : SearchState) :
    (l.foldl Convert_Geometry.search_step st = st ∧ ∀ c ∈ l, ¬ lt c._ERROR st.ERROR)
      ∨ ∃ c ∈ l, lt c._ERROR st.ERROR
          ∧ Adopted st (l.foldl Convert_Geometry.search_step st) c
          ∧ ∀ d ∈ l, ¬ lt d._ERROR c._ERROR := by
  induction l generalizing st with
  | nil => exact Or.inl ⟨rfl, fun c hc => absurd hc (List.not_mem_nil c)⟩
  | cons c l ih =>
    rw [List.foldl_cons]
    by_cases hlt : lt c._ERROR st.ERROR
    · have hstep : Convert_Geometry.search_step st c =
          { ERROR := c._ERROR, to_M := ![c._to_M 0, c._to_M 1, st.to_M 2],
            _NEW := { x := c._x, y := c._y } } := by
        simp [Convert_Geometry.search_step, hlt]
      have hown : Adopted st (Convert_Geometry.search_step st c) c := by
        rw [hstep]
        exact ⟨rfl, rfl, rfl, rfl, rfl⟩
      have herr : (Convert_Geometry.search_step st c).ERROR = c._ERROR := hown.1
      right
      rcases ih (Convert_Geometry.search_step st c) with ⟨heq, hall⟩ | ⟨d, hd, hdlt, had, hmin⟩
      · refine ⟨c, List.mem_cons_self c l, hlt, ?_, ?_⟩
        · rw [heq]
          exact hown
        · intro d hd
          rcases List.mem_cons.1 hd with rfl | hd
          · exact CFloat.lt_irrefl_fl _
          · have := hall d hd
            rwa [herr] at this
      · rw [herr] at hdlt
        refine ⟨d, List.mem_cons_of_mem c hd, CFloat.lt_trans_fl hdlt hlt, ?_, ?_⟩
        · obtain ⟨a1, a2, a3, a4, a5⟩ := had
          exact ⟨a1, a2, a3, a4, a5.trans hown.2.2.2.2⟩
        · intro e he
          rcases List.mem_cons.1 he with rfl | he
          · intro hcd
            exact CFloat.lt_irrefl_fl _ (CFloat.lt_trans_fl hcd hdlt)
          · exact hmin e he
    · have hstep : Convert_Geometry.search_step st c = st := by
        simp [Convert_Geometry.search_step, hlt]
      rw [hstep]
      rcases ih st with ⟨heq, hall⟩ | ⟨d, hd, hdlt, had, hmin⟩
      · left
        refine ⟨heq, fun d hd => ?_⟩
        rcases List.mem_cons.1 hd with rfl | hd
        · exact hlt
        · exact hall d hd
      · right
        refine ⟨d, List.mem_cons_of_mem c hd, hdlt, had, ?_⟩
        intro e he
        rcases List.mem_cons.1 he with rfl | he
        · intro hcd
          exact hlt (CFloat.lt_trans_fl hcd hdlt)
        · exact hmin e he

theorem Convert_Geometry.mem_candidates (settings : settings_t) (W : ℝ)
    (pp : Fin N_AXIS → ℤ) (target : Fin N_AXIS → ℝ) (c : Candidate) :
    c ∈ (Convert_Geometry.order.map fun ij =>
        Convert_Geometry.candidate settings W pp target ij.1 ij.2)
      ↔ ∃ i j, c = Convert_Geometry.candidate settings W pp target i j := by
  constructor
  · intro h
    obtain ⟨ij, -, rfl⟩ := List.mem_map.1 h
    exact ⟨ij.1, ij.2, rfl⟩
  · rintro ⟨i, j, rfl⟩
    refine List.mem_map.2 ⟨(i, j), ?_, rfl⟩
    fin_cases i <;> fin_cases j <;> simp [Convert_Geometry.order]

/-- The search of `Convert_Geometry`: untouched initial state, or an unbeaten
candidate. -/
theorem Convert_Geometry.search_cases (settings : settings_t) (W : ℝ)
    (pp : Fin N_AXIS → ℤ) (target : Fin N_AXIS → ℝ) :
    (Convert_Geometry.search settings W pp target
          = Convert_Geometry.search_init settings W target
        ∧ ∀ i j, ¬ lt (Convert_Geometry.candidate settings W pp target i j)._ERROR
            (fin 100000))
      ∨ ∃ i j, lt (Convert_Geometry.candidate settings W pp target i j)._ERROR (fin 100000)
          ∧ Adopted (Convert_Geometry.search_init settings W target)
              (Convert_Geometry.search settings W pp target)
              (Convert_Geometry.candidate settings W pp target i j)
          ∧ ∀ k l, ¬ lt (Convert_Geometry.candidate settings W pp target k l)._ERROR
              (Convert_Geometry.candidate settings W pp target i j)._ERROR := by
  rcases Convert_Geometry.search_fold
      (Convert_Geometry.order.map fun ij =>
        Convert_Geometry.candidate settings W pp target ij.1 ij.2)
      (Convert_Geometry.search_init settings W target) with ⟨heq, hall⟩ | ⟨c, hc, hlt, had, hmin⟩
  · left
    refine ⟨heq, fun i j => ?_⟩
    exact hall _ ((Convert_Geometry.mem_candidates settings W pp target _).2 ⟨i, j, rfl⟩)
  · right
    obtain ⟨i, j, rfl⟩ := (Convert_Geometry.mem_candidates settings W pp target c).1 hc
    refine ⟨i, j, hlt, had, fun k l => ?_⟩
    exact hmin _ ((Convert_Geometry.mem_candidates settings W pp target _).2 ⟨k, l, rfl⟩)

/-! ## Closed forms of the quantities of `Convert_Geometry` -/

theorem Convert_Geometry.from_p_fin (settings : settings_t) (pp : Fin N_AXIS → ℤ)
    (hX : settings.steps_per_mm X_AXIS ≠ 0) (hY : settings.steps_per_mm Y_AXIS ≠ 0) :
    Convert_Geometry.from_p settings pp
      = { x := fin (fromX settings pp), y := fin (fromY settings pp) } := by
  simp [Convert_Geometry.from_p, TO_NEW_GEOMETRY, fin_div _ hX, fin_div _ hY, fromX, fromY]

theorem Convert_Geometry.to_p_fin (settings : settings_t) (target : Fin N_AXIS → ℝ) :
    Convert_Geometry.to_p settings target
      = { x := fin (toX settings target), y := fin (toY settings target) } := by
  simp [Convert_Geometry.to_p, TO_NEW_GEOMETRY, toX, toY]

theorem Convert_Geometry.from_M_fin (settings : settings_t) (W : ℝ) (pp : Fin N_AXIS → ℤ)
    (hX : settings.steps_per_mm X_AXIS ≠ 0) (hY : settings.steps_per_mm Y_AXIS ≠ 0) :
    Convert_Geometry.from_M settings W pp
      = ![fin (cable W (fromX settings pp) (fromY settings pp) 0),
          fin (cable W (fromX settings pp) (fromY settings pp) 1), fin 0] := by
  simp [Convert_Geometry.from_M, Convert_Geometry.from_p_fin settings pp hX hY, cable]

theorem Convert_Geometry.to_M_fin (settings : settings_t) (W : ℝ) (target : Fin N_AXIS → ℝ) :
    Convert_Geometry.to_M settings W target
      = ![fin (cable W (toX settings target) (toY settings target) 0),
          fin (cable W (toX settings target) (toY settings target) 1), fin 0] := by
  simp [Convert_Geometry.to_M, Convert_Geometry.to_p_fin, cable]

theorem Convert_Geometry.dM1_p_fin (settings : settings_t) (W : ℝ) (pp : Fin N_AXIS → ℤ)
    (target : Fin N_AXIS → ℝ)
    (hX : settings.steps_per_mm X_AXIS ≠ 0) (hY : settings.steps_per_mm Y_AXIS ≠ 0)
    (i : Fin 2) :
    Convert_Geometry.dM1_p settings W pp target i
      = fin ((stepCount settings W pp target 0 i : ℝ) / settings.steps_per_mm X_AXIS) := by
  fin_cases i <;>
    simp [Convert_Geometry.dM1_p, Convert_Geometry.from_M_fin settings W pp hX hY,
      Convert_Geometry.to_M_fin, fin_div _ hX, stepCount, contDelta, motor_spm]

theorem Convert_Geometry.dM2_p_fin (settings : settings_t) (W : ℝ) (pp : Fin N_AXIS → ℤ)
    (target : Fin N_AXIS → ℝ)
    (hX : settings.steps_per_mm X_AXIS ≠ 0) (hY : settings.steps_per_mm Y_AXIS ≠ 0)
    (j : Fin 2) :
    Convert_Geometry.dM2_p settings W pp target j
      = fin ((stepCount settings W pp target 1 j : ℝ) / settings.steps_per_mm Y_AXIS) := by
  fin_cases j <;>
    simp [Convert_Geometry.dM2_p, Convert_Geometry.from_M_fin settings W pp hX hY,
      Convert_Geometry.to_M_fin, fin_div _ hY, stepCount, contDelta, motor_spm]

theorem Convert_Geometry.candidate_to_M (settings : settings_t) (W : ℝ)
    (pp : Fin N_AXIS → ℤ) (target : Fin N_AXIS → ℝ)
    (hX : settings.steps_per_mm X_AXIS ≠ 0) (hY : settings.steps_per_mm Y_AXIS ≠ 0)
    (i j : Fin 2) :
    (Convert_Geometry.candidate settings W pp target i j)._to_M
      = ![fin (candLen settings W pp target 0 i), fin (candLen settings W pp target 1 j)] := by
  show ![_, _] = _
  rw [Convert_Geometry.dM1_p_fin settings W pp target hX hY,
    Convert_Geometry.dM2_p_fin settings W pp target hX hY,
    Convert_Geometry.from_M_fin settings W pp hX hY]
  simp [candLen, motor_spm]

theorem Convert_Geometry.candidate_point (settings : settings_t) (W : ℝ)
    (pp : Fin N_AXIS → ℤ) (target : Fin N_AXIS → ℝ)
    (hX : settings.steps_per_mm X_AXIS ≠ 0) (hY : settings.steps_per_mm Y_AXIS ≠ 0)
    (i j : Fin 2) :
    ({ x := (Convert_Geometry.candidate settings W pp target i j)._x,
       y := (Convert_Geometry.candidate settings W pp target i j)._y } : point)
      = reconstruct W (fin (candLen settings W pp target 0 i))
          (fin (candLen settings W pp target 1 j)) := by
  have h := Convert_Geometry.candidate_to_M settings W pp target hX hY i j
  have e : ({ x := (Convert_Geometry.candidate settings W pp target i j)._x,
              y := (Convert_Geometry.candidate settings W pp target i j)._y } : point)
      = reconstruct W ((Convert_Geometry.candidate settings W pp target i j)._to_M 0)
          ((Convert_Geometry.candidate settings W pp target i j)._to_M 1) := rfl
  rw [e, h]
  simp

theorem Convert_Geometry.candidate_error (settings : settings_t) (W : ℝ)
    (pp : Fin N_AXIS → ℤ) (target : Fin N_AXIS → ℝ) (i j : Fin 2) :
    (Convert_Geometry.candidate settings W pp target i j)._ERROR
      = hypot (fabs ((Convert_Geometry.candidate settings W pp target i j)._x
            - fin (toX settings target)))
          (fabs ((Convert_Geometry.candidate settings W pp target i j)._y
            - fin (toY settings target))) := by
  show hypot (fabs (_ - (Convert_Geometry.to_p settings target).x))
    (fabs (_ - (Convert_Geometry.to_p settings target).y)) = _
  rw [Convert_Geometry.to_p_fin]
  rfl

/-- C1, as amended. Whenever at least one of the four candidates has an error strictly
below the initial bound 100000, the point `_NEW` and the cable lengths `to_M` the
search ends with are those of one of the four candidates, whose error (the Euclidean
distance from its reconstructed point to the continuous machine-frame target) is a
number and is `≤` the error of every candidate whose error is a number. -/
theorem quantization_minimality (settings : settings_t) (W : ℝ) (pp : Fin N_AXIS → ℤ)
    (target : Fin N_AXIS → ℝ)
    (h : ∃ i j, lt (Convert_Geometry.candidate settings W pp target i j)._ERROR (fin 100000)) :
    ∃ i j e,
      (Convert_Geometry.search settings W pp target)._NEW
          = { x := (Convert_Geometry.candidate settings W pp target i j)._x,
              y := (Convert_Geometry.candidate settings W pp target i j)._y }
        ∧ (Convert_Geometry.search settings W pp target).to_M X_AXIS
            = (Convert_Geometry.candidate settings W pp target i j)._to_M 0
        ∧ (Convert_Geometry.search settings W pp target).to_M Y_AXIS
            = (Convert_Geometry.candidate settings W pp target i j)._to_M 1
        ∧ hypot (fabs ((Convert_Geometry.candidate settings W pp target i j)._x
              - (Convert_Geometry.to_p settings target).x))
            (fabs ((Convert_Geometry.candidate settings W pp target i j)._y
              - (Convert_Geometry.to_p settings target).y)) = fin e
        ∧ (Convert_Geometry.candidate settings W pp target i j)._ERROR = fin e
        ∧ ∀ k l e', (Convert_Geometry.candidate settings W pp target k l)._ERROR = fin e' →
            e ≤ e' := by
  rcases Convert_Geometry.search_cases settings W pp target with
    ⟨-, hall⟩ | ⟨i, j, hlt, had, hmin⟩
  · obtain ⟨i, j, hij⟩ := h
    exact absurd hij (hall i j)
  · obtain ⟨a1, a2, a3, a4, -⟩ := had
    cases he : (Convert_Geometry.candidate settings W pp target i j)._ERROR with
    | nan =>
      rw [he] at hlt
      exact absurd hlt (not_lt_nan_left _)
    | fin e =>
      refine ⟨i, j, e, a2, a3, a4, he, he, fun k l e' hkl => ?_⟩
      have hn := hmin k l
      rw [hkl, he, lt_fin] at hn
      exact not_lt.1 hn

theorem cable_eq {W x y a b : ℝ} (ha : 0 ≤ a) (hb : 0 ≤ b) (h1 : x ^ 2 + y ^ 2 = a ^ 2)
    (h2 : (W - x) ^ 2 + y ^ 2 = b ^ 2) : cable W x y = ![a, b] := by
  unfold cable
  rw [h1, h2, Real.sqrt_sq ha, Real.sqrt_sq hb]

theorem reconstruct_eval {W d1 d2 r : ℝ} (hW : 0 < W) (hr : 0 ≤ r)
    (h : heron |d1| |d2| W = r ^ 2) :
    reconstruct W (fin d1) (fin d2)
      = { x := fin (|d1 ^ 2 - d2 ^ 2 + W ^ 2| / (2 * W)), y := fin (2 * r / W) } := by
  rw [reconstruct_fin hW (by rw [h]; positivity), h, Real.sqrt_sq hr]

theorem Convert_Geometry.example_345_from :
    cable 6 (fromX unit_settings origin_steps) (fromY unit_settings origin_steps) = ![0, 6] :=
  cable_eq le_rfl (by norm_num) (by simp [fromX, fromY, unit_settings, origin_steps])
    (by simp [fromX, fromY, unit_settings, origin_steps])

theorem Convert_Geometry.example_345_len (m r : Fin 2) :
    candLen unit_settings 6 origin_steps ![3, -4, 0] m r = 5 := by
  have hto : cable 6 (toX unit_settings ![3, -4, 0]) (toY unit_settings ![3, -4, 0])
      = ![5, 5] :=
    cable_eq (by norm_num) (by norm_num) (by simp [toX, toY, unit_settings]; norm_num)
      (by simp [toX, toY, unit_settings]; norm_num)
  simp only [candLen, stepCount, contDelta, Convert_Geometry.example_345_from, hto]
  fin_cases m <;> fin_cases r <;> simp [motor_spm, unit_settings] <;> norm_num

theorem Convert_Geometry.example_345 (i j : Fin 2) :
    (Convert_Geometry.candidate unit_settings 6 origin_steps ![3, -4, 0] i j)._ERROR
      = fin 0 := by
  have hX : unit_settings.steps_per_mm X_AXIS ≠ 0 := by simp [unit_settings]
  have hY : unit_settings.steps_per_mm Y_AXIS ≠ 0 := by simp [unit_settings]
  have hp := Convert_Geometry.candidate_point unit_settings 6 origin_steps ![3, -4, 0] hX hY i j
  rw [Convert_Geometry.example_345_len, Convert_Geometry.example_345_len,
    reconstruct_eval (r := 12) (by norm_num) (by norm_num)
    (by rw [abs_of_pos (by norm_num : (0 : ℝ) < 5)]; unfold heron; norm_num)] at hp
  simp only [point.mk.injEq] at hp
  rw [Convert_Geometry.candidate_error, hp.1, hp.2]
  simp [toX, toY, unit_settings]
  norm_num

/-- In the 3-4-5 example the search ends with the cable lengths `(5, 5)`; the current
ones are `(0, 6)`. -/
theorem Convert_Geometry.example_345_delta :
    Convert_Geometry.delta_mm unit_settings 6 origin_steps ![3, -4, 0] X_AXIS = fin 5
      ∧ Convert_Geometry.delta_mm unit_settings 6 origin_steps ![3, -4, 0] Y_AXIS
          = fin (-1) := by
  have hX : unit_settings.steps_per_mm X_AXIS ≠ 0 := by simp [unit_settings]
  have hY : unit_settings.steps_per_mm Y_AXIS ≠ 0 := by simp [unit_settings]
  have hfrom := Convert_Geometry.from_M_fin unit_settings 6 origin_steps hX hY
  rw [Convert_Geometry.example_345_from] at hfrom
  rcases Convert_Geometry.search_cases unit_settings 6 origin_steps ![3, -4, 0] with
    ⟨-, hall⟩ | ⟨i, j, -, ⟨-, -, h0, h1, -⟩, -⟩
  · exact absurd (by rw [Convert_Geometry.example_345]; simp) (hall 0 0)
  · rw [Convert_Geometry.candidate_to_M unit_settings 6 origin_steps ![3, -4, 0] hX hY] at h0 h1
    simp only [Convert_Geometry.example_345_len, Matrix.cons_val_zero, Matrix.cons_val_one,
      Matrix.head_cons] at h0 h1
    unfold Convert_Geometry.delta_mm
    constructor
    · show (Convert_Geometry.search unit_settings 6 origin_steps ![3, -4, 0]).to_M 0
        - Convert_Geometry.from_M unit_settings 6 origin_steps 0 = fin 5
      rw [h0, hfrom]
      simp
    · show (Convert_Geometry.search unit_settings 6 origin_steps ![3, -4, 0]).to_M 1
        - Convert_Geometry.from_M unit_settings 6 origin_steps 1 = fin (-1)
      rw [h1, hfrom]
      simp
      norm_num

/-- Witness of `quantization_minimality`: one step per millimetre, home `(0, 0)`, width
6, current steps `(0, 0)`, target `(3, -4)`; every candidate has error 0. -/
theorem quantization_minimality_witness :
    (∃ i j, lt (Convert_Geometry.candidate unit_settings 6 origin_steps ![3, -4, 0] i j)._ERROR
        (fin 100000))
    ∧ ∃ i j e,
      (Convert_Geometry.search unit_settings 6 origin_steps ![3, -4, 0])._NEW
          = { x := (Convert_Geometry.candidate unit_settings 6 origin_steps ![3, -4, 0] i j)._x,
              y := (Convert_Geometry.candidate unit_settings 6 origin_steps ![3, -4, 0] i j)._y }
        ∧ (Convert_Geometry.search unit_settings 6 origin_steps ![3, -4, 0]).to_M X_AXIS
            = (Convert_Geometry.candidate unit_settings 6 origin_steps ![3, -4, 0] i j)._to_M 0
        ∧ (Convert_Geometry.search unit_settings 6 origin_steps ![3, -4, 0]).to_M Y_AXIS
            = (Convert_Geometry.candidate unit_settings 6 origin_steps ![3, -4, 0] i j)._to_M 1
        ∧ hypot (fabs ((Convert_Geometry.candidate unit_settings 6 origin_steps
                ![3, -4, 0] i j)._x
              - (Convert_Geometry.to_p unit_settings ![3, -4, 0]).x))
            (fabs ((Convert_Geometry.candidate unit_settings 6 origin_steps ![3, -4, 0] i j)._y
              - (Convert_Geometry.to_p unit_settings ![3, -4, 0]).y)) = fin e
        ∧ (Convert_Geometry.candidate unit_settings 6 origin_steps ![3, -4, 0] i j)._ERROR
            = fin e
        ∧ ∀ k l e',
            (Convert_Geometry.candidate unit_settings 6 origin_steps ![3, -4, 0] k l)._ERROR
              = fin e' → e ≤ e' :=
  have h : ∃ i j,
      lt (Convert_Geometry.candidate unit_settings 6 origin_steps ![3, -4, 0] i j)._ERROR
        (fin 100000) := ⟨0, 0, by rw [Convert_Geometry.example_345]; simp⟩
  ⟨h, quantization_minimality unit_settings 6 origin_steps ![3, -4, 0] h⟩

/-- The far target: width 37500, target `(0, 50000)` above motor M1. Every candidate
reconstructs to the mirror image `(0, 50000)` of the machine-frame target `(0, -50000)`
and has error exactly 100000. -/
theorem Convert_Geometry.example_far (i j : Fin 2) :
    (Convert_Geometry.candidate unit_settings 37500 origin_steps ![0, 50000, 0] i j)._x = fin 0
      ∧ (Convert_Geometry.candidate unit_settings 37500 origin_steps ![0, 50000, 0] i j)._y
          = fin 50000
      ∧ (Convert_Geometry.candidate unit_settings 37500 origin_steps ![0, 50000, 0] i j)._ERROR
          = fin 100000 := by
  have hX : unit_settings.steps_per_mm X_AXIS ≠ 0 := by simp [unit_settings]
  have hY : unit_settings.steps_per_mm Y_AXIS ≠ 0 := by simp [unit_settings]
  have hfrom : cable 37500 (fromX unit_settings origin_steps)
      (fromY unit_settings origin_steps) = ![0, 37500] :=
    cable_eq le_rfl (by norm_num) (by simp [fromX, fromY, unit_settings, origin_steps])
      (by simp [fromX, fromY, unit_settings, origin_steps])
  have hto : cable 37500 (toX unit_settings ![0, 50000, 0]) (toY unit_settings ![0, 50000, 0])
      = ![50000, 62500] :=
    cable_eq (by norm_num) (by norm_num) (by simp [toX, toY, unit_settings])
      (by simp [toX, toY, unit_settings]; norm_num)
  have hlen0 : ∀ r, candLen unit_settings 37500 origin_steps ![0, 50000, 0] 0 r = 50000 := by
    intro r
    simp only [candLen, stepCount, contDelta, hfrom, hto]
    fin_cases r <;> simp [motor_spm, unit_settings]
  have hlen1 : ∀ r, candLen unit_settings 37500 origin_steps ![0, 50000, 0] 1 r = 62500 := by
    intro r
    simp only [candLen, stepCount, contDelta, hfrom, hto]
    fin_cases r <;> simp [motor_spm, unit_settings] <;> norm_num
  have hp := Convert_Geometry.candidate_point unit_settings 37500 origin_steps
    ![0, 50000, 0] hX hY i j
  rw [hlen0, hlen1, reconstruct_eval (r := 937500000) (by norm_num) (by norm_num)
    (by rw [abs_of_pos (by norm_num : (0 : ℝ) < 50000),
          abs_of_pos (by norm_num : (0 : ℝ) < 62500)]
        unfold heron
        norm_num)] at hp
  simp only [point.mk.injEq] at hp
  have hx0 : |(50000 : ℝ) ^ 2 - 62500 ^ 2 + 37500 ^ 2| / (2 * 37500) = 0 := by norm_num
  have hy0 : (2 : ℝ) * 937500000 / 37500 = 50000 := by norm_num
  rw [hx0] at hp
  rw [hy0] at hp
  refine ⟨hp.1, hp.2, ?_⟩
  rw [Convert_Geometry.candidate_error, hp.1, hp.2]
  simp only [toX, toY, unit_settings, fin_sub, fabs_fin, hypot_fin, Matrix.cons_val_zero,
    Matrix.cons_val_one, Matrix.head_cons]
  congr 1
  rw [show |(0 : ℝ) - (0 + 0)| ^ 2 + |(50000 : ℝ) - -(50000 - 0)| ^ 2 = 100000 ^ 2 by norm_num]
  exact Real.sqrt_sq (by norm_num)

/-- C1, counterexample. With width 37500, one step per millimetre, home `(0, 0)`,
current steps `(0, 0)` and target `(0, 50000)`, no candidate is adopted: `_NEW` stays
`(0, 0)`, which is the reconstructed point of none of the four candidates. -/
theorem quantization_minimality_counterexample :
    (0 : ℝ) < 37500 ∧ (∀ idx, 0 < unit_settings.steps_per_mm idx)
      ∧ (Convert_Geometry.search unit_settings 37500 origin_steps ![0, 50000, 0])._NEW
          = { x := fin 0, y := fin 0 }
      ∧ ¬ ∃ i j, (Convert_Geometry.search unit_settings 37500 origin_steps ![0, 50000, 0])._NEW
          = { x := (Convert_Geometry.candidate unit_settings 37500 origin_steps
                ![0, 50000, 0] i j)._x,
              y := (Convert_Geometry.candidate unit_settings 37500 origin_steps
                ![0, 50000, 0] i j)._y } := by
  have hs : Convert_Geometry.search unit_settings 37500 origin_steps ![0, 50000, 0]
      = Convert_Geometry.search_init unit_settings 37500 ![0, 50000, 0] := by
    rcases Convert_Geometry.search_cases unit_settings 37500 origin_steps ![0, 50000, 0] with
      ⟨h, -⟩ | ⟨i, j, hlt, -, -⟩
    · exact h
    · rw [(Convert_Geometry.example_far i j).2.2] at hlt
      exact absurd hlt (by simp)
  refine ⟨by norm_num, fun idx => by simp [unit_settings], by rw [hs]; rfl, ?_⟩
  rintro ⟨i, j, h⟩
  rw [hs, (Convert_Geometry.example_far i j).1, (Convert_Geometry.example_far i j).2.1] at h
  have h2 : fin 0 = fin 50000 := congrArg point.y h
  have h3 : (0 : ℝ) = 50000 := CFloat.fin.inj h2
  norm_num at h3

/-! ## The loop over the axes -/

theorem Convert_Geometry.search_to_M_Z (settings : settings_t) (W : ℝ) (pp : Fin N_AXIS → ℤ)
    (target : Fin N_AXIS → ℝ) :
    (Convert_Geometry.search settings W pp target).to_M Z_AXIS = fin 0 := by
  rcases Convert_Geometry.search_cases settings W pp target with
    ⟨h, -⟩ | ⟨i, j, -, ⟨-, -, -, -, h⟩, -⟩
  · rw [h]
    rfl
  · exact h

theorem Convert_Geometry.delta_mm_Z (settings : settings_t) (W : ℝ) (pp : Fin N_AXIS → ℤ)
    (target : Fin N_AXIS → ℝ) :
    Convert_Geometry.delta_mm settings W pp target Z_AXIS = fin 0 := by
  unfold Convert_Geometry.delta_mm
  rw [Convert_Geometry.search_to_M_Z]
  show fin 0 - fin 0 = fin 0
  simp

theorem Convert_Geometry.direction_bits_eq (settings : settings_t) (W : ℝ)
    (mask : Fin N_AXIS → ℕ) (st : State) :
    (Convert_Geometry settings W mask st).block.direction_bits
      = (if lt (Convert_Geometry.delta_mm settings W st.planner_position st.target Y_AXIS)
            (fin 0) then
          (if lt (Convert_Geometry.delta_mm settings W st.planner_position st.target X_AXIS)
              (fin 0) then st.block.direction_bits ||| mask X_AXIS
            else st.block.direction_bits) ||| mask Y_AXIS
        else
          (if lt (Convert_Geometry.delta_mm settings W st.planner_position st.target X_AXIS)
              (fin 0) then st.block.direction_bits ||| mask X_AXIS
            else st.block.direction_bits)) := by
  have hz := Convert_Geometry.delta_mm_Z settings W st.planner_position st.target
  unfold Convert_Geometry.delta_mm at hz
  simp only [Convert_Geometry, List.foldl, Convert_Geometry.axis_body,
    Convert_Geometry.delta_mm, hz, lt_fin, lt_self_iff_false, if_false]

/-- C5, as amended. After `Convert_Geometry` the direction bit of a motor axis is set
if and only if it was already set in the incoming block or the cable-length delta used
for that axis is negative (the code only ever sets bits, with `|=`). The masks of the
two motor axes are the single bits `X_DIRECTION_BIT` and `Y_DIRECTION_BIT`. -/
theorem direction_bit_consistency (settings : settings_t) (W : ℝ) (mask : Fin N_AXIS → ℕ)
    (st : State) (hx : mask X_AXIS = 1 <<< X_DIRECTION_BIT)
    (hy : mask Y_AXIS = 1 <<< Y_DIRECTION_BIT) :
    ((Convert_Geometry settings W mask st).block.direction_bits.testBit X_DIRECTION_BIT = true
        ↔ (st.block.direction_bits.testBit X_DIRECTION_BIT = true
            ∨ lt (Convert_Geometry.delta_mm settings W st.planner_position st.target X_AXIS)
                (fin 0)))
      ∧ ((Convert_Geometry settings W mask st).block.direction_bits.testBit Y_DIRECTION_BIT
            = true
          ↔ (st.block.direction_bits.testBit Y_DIRECTION_BIT = true
              ∨ lt (Convert_Geometry.delta_mm settings W st.planner_position st.target Y_AXIS)
                  (fin 0))) := by
  have h1 : Nat.testBit 16 4 = true := by decide
  have h2 : Nat.testBit 16 6 = false := by decide
  have h3 : Nat.testBit 64 4 = false := by decide
  have h4 : Nat.testBit 64 6 = true := by decide
  rw [Convert_Geometry.direction_bits_eq, hx, hy]
  unfold X_DIRECTION_BIT Y_DIRECTION_BIT
  constructor <;> split_ifs with hY hX hX <;>
    simp [Nat.testBit_lor, h1, h2, h3, h4, hX, hY]

/-- Witness of `direction_bit_consistency`: the 3-4-5 example with an empty incoming
block. -/
theorem direction_bit_consistency_witness :
    ((Convert_Geometry unit_settings 6 sample_direction_pin_mask
          (sample_state ![3, -4, 0] 0 0)).block.direction_bits.testBit X_DIRECTION_BIT = true
        ↔ ((sample_state ![3, -4, 0] 0 0).block.direction_bits.testBit X_DIRECTION_BIT = true
            ∨ lt (Convert_Geometry.delta_mm unit_settings 6
                  (sample_state ![3, -4, 0] 0 0).planner_position
                  (sample_state ![3, -4, 0] 0 0).target X_AXIS) (fin 0)))
      ∧ ((Convert_Geometry unit_settings 6 sample_direction_pin_mask
            (sample_state ![3, -4, 0] 0 0)).block.direction_bits.testBit Y_DIRECTION_BIT = true
          ↔ ((sample_state ![3, -4, 0] 0 0).block.direction_bits.testBit Y_DIRECTION_BIT = true
              ∨ lt (Convert_Geometry.delta_mm unit_settings 6
                    (sample_state ![3, -4, 0] 0 0).planner_position
                    (sample_state ![3, -4, 0] 0 0).target Y_AXIS) (fin 0))) :=
  direction_bit_consistency unit_settings 6 sample_direction_pin_mask
    (sample_state ![3, -4, 0] 0 0) rfl rfl

/-- C5, counterexample. In the 3-4-5 example the cable of motor M1 gets longer (delta
`5`, not negative), and with an incoming block whose `direction_bits` already holds the
bit of the X axis (value 16) that bit is still set after `Convert_Geometry`. -/
theorem direction_bit_counterexample :
    (Convert_Geometry unit_settings 6 sample_direction_pin_mask
        (sample_state ![3, -4, 0] 16 0)).block.direction_bits.testBit X_DIRECTION_BIT = true
      ∧ Convert_Geometry.delta_mm unit_settings 6 (sample_state ![3, -4, 0] 16 0).planner_position
          (sample_state ![3, -4, 0] 16 0).target X_AXIS = fin 5
      ∧ ¬ lt (Convert_Geometry.delta_mm unit_settings 6
            (sample_state ![3, -4, 0] 16 0).planner_position
            (sample_state ![3, -4, 0] 16 0).target X_AXIS) (fin 0) := by
  have hd := Convert_Geometry.example_345_delta
  have e1 : (sample_state ![3, -4, 0] 16 0).planner_position = origin_steps := rfl
  have e2 : (sample_state ![3, -4, 0] 16 0).target = ![3, -4, 0] := rfl
  have e3 : (sample_state ![3, -4, 0] 16 0).block.direction_bits = 16 := rfl
  rw [Convert_Geometry.direction_bits_eq, e1, e2, e3, hd.1, hd.2]
  refine ⟨?_, rfl, by simp⟩
  have hneg : lt (fin (-1)) (fin 0) := by simp
  have hpos : ¬ lt (fin 5) (fin 0) := by simp
  rw [if_pos hneg, if_neg hpos]
  decide

theorem axis_cases (idx : Fin N_AXIS) : idx = X_AXIS ∨ idx = Y_AXIS ∨ idx = Z_AXIS := by
  fin_cases idx
  · exact Or.inl rfl
  · exact Or.inr (Or.inl rfl)
  · exact Or.inr (Or.inr rfl)

theorem Convert_Geometry.steps_eq (settings : settings_t) (W : ℝ) (mask : Fin N_AXIS → ℕ)
    (st : State) (idx : Fin N_AXIS) :
    (Convert_Geometry settings W mask st).block.steps idx
      = (toInt (Convert_Geometry.delta_mm settings W st.planner_position st.target idx
          * fin (settings.steps_per_mm idx))).natAbs := by
  have hxy : X_AXIS ≠ Y_AXIS := by decide
  have hxz : X_AXIS ≠ Z_AXIS := by decide
  have hyz : Y_AXIS ≠ Z_AXIS := by decide
  rcases axis_cases idx with rfl | rfl | rfl <;>
    simp [Convert_Geometry, List.foldl, Convert_Geometry.axis_body, Convert_Geometry.delta_mm,
      Function.update, hxy, hxz, hyz]

/-- The delta used for a motor when the candidate `(i, j)` was adopted. -/
theorem Convert_Geometry.delta_mm_of_adopted (settings : settings_t) (W : ℝ)
    (pp : Fin N_AXIS → ℤ) (target : Fin N_AXIS → ℝ) (i j : Fin 2)
    (hX : settings.steps_per_mm X_AXIS ≠ 0) (hY : settings.steps_per_mm Y_AXIS ≠ 0)
    (h : Adopted (Convert_Geometry.search_init settings W target)
      (Convert_Geometry.search settings W pp target)
      (Convert_Geometry.candidate settings W pp target i j)) :
    Convert_Geometry.delta_mm settings W pp target X_AXIS
        = fin ((stepCount settings W pp target 0 i : ℝ) / settings.steps_per_mm X_AXIS)
      ∧ Convert_Geometry.delta_mm settings W pp target Y_AXIS
        = fin ((stepCount settings W pp target 1 j : ℝ) / settings.steps_per_mm Y_AXIS) := by
  obtain ⟨-, -, h0, h1, -⟩ := h
  rw [Convert_Geometry.candidate_to_M settings W pp target hX hY] at h0 h1
  have hfrom := Convert_Geometry.from_M_fin settings W pp hX hY
  unfold Convert_Geometry.delta_mm
  constructor
  · show (Convert_Geometry.search settings W pp target).to_M 0
      - Convert_Geometry.from_M settings W pp 0 = _
    rw [h0, hfrom]
    simp [candLen, motor_spm]
  · show (Convert_Geometry.search settings W pp target).to_M 1
      - Convert_Geometry.from_M settings W pp 1 = _
    rw [h1, hfrom]
    simp [candLen, motor_spm]

/-! ## Quantization of the deltas -/
theorem floor_div_le {c s : ℝ} (hs : 0 < s) : (⌊c * s⌋ : ℝ) / s ≤ c := by
  rw [div_le_iff₀ hs]
  exact Int.floor_le _

theorem le_ceil_div {c s : ℝ} (hs : 0 < s) : c ≤ (⌈c * s⌉ : ℝ) / s := by
  rw [le_div_iff₀ hs]
  exact Int.le_ceil _

theorem floor_div_close {c s : ℝ} (hs : 0 < s) : |(⌊c * s⌋ : ℝ) / s - c| < 1 / s := by
  have h1 := Int.floor_le (c * s)
  have h2 := Int.lt_floor_add_one (c * s)
  have e : (⌊c * s⌋ : ℝ) / s - c = ((⌊c * s⌋ : ℝ) - c * s) / s := by
    field_simp
    ring
  rw [e, abs_div, abs_of_pos hs]
  apply div_lt_div_of_pos_right _ hs
  rw [abs_lt]
  constructor <;> linarith

theorem ceil_div_close {c s : ℝ} (hs : 0 < s) : |(⌈c * s⌉ : ℝ) / s - c| < 1 / s := by
  have h1 := Int.le_ceil (c * s)
  have h2 := Int.ceil_lt_add_one (c * s)
  have e : (⌈c * s⌉ : ℝ) / s - c = ((⌈c * s⌉ : ℝ) - c * s) / s := by
    field_simp
    ring
  rw [e, abs_div, abs_of_pos hs]
  apply div_lt_div_of_pos_right _ hs
  rw [abs_lt]
  constructor <;> linarith

theorem Convert_Geometry.delta_mm_init (settings : settings_t) (W : ℝ)
    (pp : Fin N_AXIS → ℤ) (target : Fin N_AXIS → ℝ)
    (hX : settings.steps_per_mm X_AXIS ≠ 0) (hY : settings.steps_per_mm Y_AXIS ≠ 0) :
    Convert_Geometry.to_M settings W target X_AXIS - Convert_Geometry.from_M settings W pp X_AXIS
        = fin (contDelta settings W pp target 0)
      ∧ Convert_Geometry.to_M settings W target Y_AXIS
          - Convert_Geometry.from_M settings W pp Y_AXIS
        = fin (contDelta settings W pp target 1) := by
  rw [Convert_Geometry.from_M_fin settings W pp hX hY, Convert_Geometry.to_M_fin]
  constructor <;> simp [contDelta]

/-- C10. For positive `steps_per_mm`, the floor and the ceil candidate of each motor
are integers divided by `steps_per_mm` that bracket the continuous delta
`to_M[m] - from_M[m]`, and the delta finally used for the motor differs from the
continuous one by strictly less than `1 / steps_per_mm`. -/
theorem quantization_within_one_step (settings : settings_t) (W : ℝ) (pp : Fin N_AXIS → ℤ)
    (target : Fin N_AXIS → ℝ) (hX : 0 < settings.steps_per_mm X_AXIS)
    (hY : 0 < settings.steps_per_mm Y_AXIS) :
    (Convert_Geometry.to_M settings W target X_AXIS - Convert_Geometry.from_M settings W pp X_AXIS
          = fin (contDelta settings W pp target 0)
        ∧ Convert_Geometry.dM1_p settings W pp target 0
          = fin ((⌊contDelta settings W pp target 0 * settings.steps_per_mm X_AXIS⌋ : ℝ)
              / settings.steps_per_mm X_AXIS)
        ∧ Convert_Geometry.dM1_p settings W pp target 1
          = fin ((⌈contDelta settings W pp target 0 * settings.steps_per_mm X_AXIS⌉ : ℝ)
              / settings.steps_per_mm X_AXIS)
        ∧ (⌊contDelta settings W pp target 0 * settings.steps_per_mm X_AXIS⌋ : ℝ)
              / settings.steps_per_mm X_AXIS ≤ contDelta settings W pp target 0
        ∧ contDelta settings W pp target 0
            ≤ (⌈contDelta settings W pp target 0 * settings.steps_per_mm X_AXIS⌉ : ℝ)
              / settings.steps_per_mm X_AXIS
        ∧ ∃ d, Convert_Geometry.delta_mm settings W pp target X_AXIS = fin d
            ∧ |d - contDelta settings W pp target 0| < 1 / settings.steps_per_mm X_AXIS)
      ∧ (Convert_Geometry.to_M settings W target Y_AXIS
            - Convert_Geometry.from_M settings W pp Y_AXIS
          = fin (contDelta settings W pp target 1)
        ∧ Convert_Geometry.dM2_p settings W pp target 0
          = fin ((⌊contDelta settings W pp target 1 * settings.steps_per_mm Y_AXIS⌋ : ℝ)
              / settings.steps_per_mm Y_AXIS)
        ∧ Convert_Geometry.dM2_p settings W pp target 1
          = fin ((⌈contDelta settings W pp target 1 * settings.steps_per_mm Y_AXIS⌉ : ℝ)
              / settings.steps_per_mm Y_AXIS)
        ∧ (⌊contDelta settings W pp target 1 * settings.steps_per_mm Y_AXIS⌋ : ℝ)
              / settings.steps_per_mm Y_AXIS ≤ contDelta settings W pp target 1
        ∧ contDelta settings W pp target 1
            ≤ (⌈contDelta settings W pp target 1 * settings.steps_per_mm Y_AXIS⌉ : ℝ)
              / settings.steps_per_mm Y_AXIS
        ∧ ∃ d, Convert_Geometry.delta_mm settings W pp target Y_AXIS = fin d
            ∧ |d - contDelta settings W pp target 1| < 1 / settings.steps_per_mm Y_AXIS) := by
  have hX0 : settings.steps_per_mm X_AXIS ≠ 0 := hX.ne.symm
  have hY0 : settings.steps_per_mm Y_AXIS ≠ 0 := hY.ne.symm
  obtain ⟨cX, cY⟩ := Convert_Geometry.delta_mm_init settings W pp target hX0 hY0
  have fX : ∃ d, Convert_Geometry.delta_mm settings W pp target X_AXIS = fin d
        ∧ |d - contDelta settings W pp target 0| < 1 / settings.steps_per_mm X_AXIS
      ∧ ∃ d, Convert_Geometry.delta_mm settings W pp target Y_AXIS = fin d
        ∧ |d - contDelta settings W pp target 1| < 1 / settings.steps_per_mm Y_AXIS := by
    rcases Convert_Geometry.search_cases settings W pp target with
      ⟨hs, -⟩ | ⟨i, j, -, had, -⟩
    · have eX : Convert_Geometry.delta_mm settings W pp target X_AXIS
          = fin (contDelta settings W pp target 0) := by
        unfold Convert_Geometry.delta_mm
        rw [hs]
        exact cX
      have eY : Convert_Geometry.delta_mm settings W pp target Y_AXIS
          = fin (contDelta settings W pp target 1) := by
        unfold Convert_Geometry.delta_mm
        rw [hs]
        exact cY
      exact ⟨_, eX, by simpa using hX, _, eY, by simpa using hY⟩
    · obtain ⟨dX, dY⟩ := Convert_Geometry.delta_mm_of_adopted settings W pp target i j hX0 hY0 had
      refine ⟨_, dX, ?_, _, dY, ?_⟩
      · fin_cases i
        · exact floor_div_close hX
        · exact ceil_div_close hX
      · fin_cases j
        · exact floor_div_close hY
        · exact ceil_div_close hY
  obtain ⟨d1, h1, b1, d2, h2, b2⟩ := fX
  exact ⟨⟨cX, Convert_Geometry.dM1_p_fin settings W pp target hX0 hY0 0,
      Convert_Geometry.dM1_p_fin settings W pp target hX0 hY0 1, floor_div_le hX,
      le_ceil_div hX, d1, h1, b1⟩,
    ⟨cY, Convert_Geometry.dM2_p_fin settings W pp target hX0 hY0 0,
      Convert_Geometry.dM2_p_fin settings W pp target hX0 hY0 1, floor_div_le hY,
      le_ceil_div hY, d2, h2, b2⟩⟩

/-- Witness of `quantization_within_one_step`: the 3-4-5 example, motor M1. -/
theorem quantization_within_one_step_witness :
    ∃ d, Convert_Geometry.delta_mm unit_settings 6 origin_steps ![3, -4, 0] X_AXIS = fin d
      ∧ |d - contDelta unit_settings 6 origin_steps ![3, -4, 0] 0|
          < 1 / unit_settings.steps_per_mm X_AXIS :=
  (quantization_within_one_step unit_settings 6 origin_steps ![3, -4, 0]
    (by simp [unit_settings]) (by simp [unit_settings])).1.2.2.2.2.2

/-! ## The planned-move scenario -/

/-- The reconstruction of a proper triangle: abscissa in closed form, ordinate `y ≥ 0`
with `y^2 = d1^2 - x^2`. -/
theorem reconstruct_apex (W d1 d2 : ℝ) (hW : 0 < W) (h1 : W ≤ d1 + d2) (h2 : d2 ≤ d1 + W)
    (h3 : d1 ≤ d2 + W) :
    ∃ y, reconstruct W (fin d1) (fin d2)
          = { x := fin (|d1 ^ 2 - d2 ^ 2 + W ^ 2| / (2 * W)), y := fin y }
      ∧ 0 ≤ y ∧ y ^ 2 = d1 ^ 2 - ((d1 ^ 2 - d2 ^ 2 + W ^ 2) / (2 * W)) ^ 2 := by
  have hd1 : 0 ≤ d1 := by linarith
  have hd2 : 0 ≤ d2 := by linarith
  have hR : 0 ≤ heron |d1| |d2| W := by
    rw [abs_of_nonneg hd1, abs_of_nonneg hd2]
    exact heron_nonneg h1 h2 h3
  refine ⟨2 * Real.sqrt (heron |d1| |d2| W) / W, reconstruct_fin hW hR, ?_, ?_⟩
  · positivity
  · have hrad := radicand_x hW hR
    linear_combination -hrad

theorem scenario_from :
    cable 1000 (fromX scenario_settings origin_steps) (fromY scenario_settings origin_steps)
      = ![500, 500] :=
  cable_eq (by norm_num) (by norm_num)
    (by simp [fromX, fromY, scenario_settings, origin_steps])
    (by simp [fromX, fromY, scenario_settings, origin_steps]; norm_num)

theorem scenario_to :
    cable 1000 (toX scenario_settings scenario_target) (toY scenario_settings scenario_target)
      = ![Real.sqrt 252500, Real.sqrt 252500] := by
  have e1 : toX scenario_settings scenario_target = 500 := by
    simp [toX, scenario_settings, scenario_target]
  have e2 : toY scenario_settings scenario_target = -50 := by
    simp [toY, scenario_settings, scenario_target]
  rw [e1, e2]
  unfold cable
  norm_num

theorem scenario_steps (m r : Fin 2) :
    stepCount scenario_settings 1000 origin_steps scenario_target m r = scenario_count r := by
  have hlo : (500 : ℝ) + 199 / 80 < Real.sqrt 252500 :=
    (Real.lt_sqrt (by norm_num)).2 (by norm_num)
  have hhi : Real.sqrt 252500 < 500 + 200 / 80 :=
    (Real.sqrt_lt' (by norm_num)).2 (by norm_num)
  have hfl : ⌊(Real.sqrt 252500 - 500) * 80⌋ = 199 := by
    rw [Int.floor_eq_iff]
    constructor
    · push_cast
      linarith
    · push_cast
      linarith
  have hce : ⌈(Real.sqrt 252500 - 500) * 80⌉ = 200 := by
    rw [Int.ceil_eq_iff]
    constructor
    · push_cast
      linarith
    · push_cast
      linarith
  simp only [stepCount, contDelta, scenario_from, scenario_to]
  fin_cases m <;> fin_cases r <;> simp [motor_spm, scenario_settings, scenario_count, hfl, hce]

theorem scenario_len (m r : Fin 2) :
    candLen scenario_settings 1000 origin_steps scenario_target m r
      = 500 + (scenario_count r : ℝ) / 80 := by
  unfold candLen
  rw [scenario_steps, scenario_from]
  fin_cases m <;> simp [motor_spm, scenario_settings]

theorem scenario_candidate (i j : Fin 2) :
    ∃ y, (Convert_Geometry.candidate scenario_settings 1000 origin_steps scenario_target
            i j)._x
          = fin (|(500 + (scenario_count i : ℝ) / 80) ^ 2 - (500 + (scenario_count j : ℝ) / 80) ^ 2
              + 1000 ^ 2| / (2 * 1000))
      ∧ (Convert_Geometry.candidate scenario_settings 1000 origin_steps scenario_target
            i j)._y = fin y
      ∧ 0 ≤ y
      ∧ y ^ 2 = (500 + (scenario_count i : ℝ) / 80) ^ 2
          - (((500 + (scenario_count i : ℝ) / 80) ^ 2 - (500 + (scenario_count j : ℝ) / 80) ^ 2
              + 1000 ^ 2) / (2 * 1000)) ^ 2
      ∧ (Convert_Geometry.candidate scenario_settings 1000 origin_steps scenario_target
            i j)._ERROR
          = fin (Real.sqrt (|(|(500 + (scenario_count i : ℝ) / 80) ^ 2
              - (500 + (scenario_count j : ℝ) / 80) ^ 2 + 1000 ^ 2| / (2 * 1000)) - 500| ^ 2
              + |y - -50| ^ 2)) := by
  have hX : scenario_settings.steps_per_mm X_AXIS ≠ 0 := by simp [scenario_settings]
  have hY : scenario_settings.steps_per_mm Y_AXIS ≠ 0 := by simp [scenario_settings]
  have hp := Convert_Geometry.candidate_point scenario_settings 1000 origin_steps
    scenario_target hX hY i j
  rw [scenario_len, scenario_len] at hp
  obtain ⟨y, hr, hy0, hy2⟩ := reconstruct_apex 1000
    (500 + (scenario_count i : ℝ) / 80) (500 + (scenario_count j : ℝ) / 80)
    (by norm_num)
    (by fin_cases i <;> fin_cases j <;> simp [scenario_count] <;> norm_num)
    (by fin_cases i <;> fin_cases j <;> simp [scenario_count] <;> norm_num)
    (by fin_cases i <;> fin_cases j <;> simp [scenario_count] <;> norm_num)
  rw [hr] at hp
  simp only [point.mk.injEq] at hp
  refine ⟨y, hp.1, hp.2, hy0, hy2, ?_⟩
  rw [Convert_Geometry.candidate_error, hp.1, hp.2]
  have e1 : toX scenario_settings scenario_target = 500 := by
    simp [toX, scenario_settings, scenario_target]
  have e2 : toY scenario_settings scenario_target = -50 := by
    simp [toY, scenario_settings, scenario_target]
  rw [e1, e2]
  rfl

/-- The floor/floor candidate of the scenario: the point `(500, sqrt (15959601/6400))`,
with error `sqrt (15959601/6400) + 50`. -/
theorem scenario_first :
    (Convert_Geometry.candidate scenario_settings 1000 origin_steps scenario_target 0 0)._x
        = fin 500
      ∧ (Convert_Geometry.candidate scenario_settings 1000 origin_steps scenario_target 0 0)._y
        = fin (Real.sqrt (15959601 / 6400))
      ∧ (Convert_Geometry.candidate scenario_settings 1000 origin_steps scenario_target
          0 0)._ERROR = fin (Real.sqrt (15959601 / 6400) + 50) := by
  obtain ⟨y, hx, hy, hy0, hy2, he⟩ := scenario_candidate 0 0
  have hx500 : |(500 + ((scenario_count 0 : ℤ) : ℝ) / 80) ^ 2
      - (500 + ((scenario_count 0 : ℤ) : ℝ) / 80) ^ 2 + 1000 ^ 2| / (2 * 1000) = (500 : ℝ) := by
    rw [show (500 + ((scenario_count 0 : ℤ) : ℝ) / 80) ^ 2
      - (500 + ((scenario_count 0 : ℤ) : ℝ) / 80) ^ 2 + 1000 ^ 2 = (1000000 : ℝ) by ring]
    norm_num
  have hq : y ^ 2 = 15959601 / 6400 := by
    rw [hy2]
    simp [scenario_count]
    norm_num
  have hys : y = Real.sqrt (15959601 / 6400) := by
    rw [← hq, Real.sqrt_sq hy0]
  rw [hx500] at hx he
  refine ⟨hx, by rw [hy, hys], ?_⟩
  rw [he, ← hys]
  congr 1
  rw [sub_self, abs_zero, sq_abs, show (0 : ℝ) ^ 2 + (y - -50) ^ 2 = (y + 50) ^ 2 by ring]
  exact Real.sqrt_sq (by linarith)

/-- Every other candidate of the scenario has a strictly larger error. -/
theorem scenario_other (i j : Fin 2) (h : ¬ (i = 0 ∧ j = 0)) :
    ∃ e, (Convert_Geometry.candidate scenario_settings 1000 origin_steps scenario_target
            i j)._ERROR = fin e
      ∧ Real.sqrt (15959601 / 6400) + 50 < e := by
  obtain ⟨y, -, -, hy0, hy2, he⟩ := scenario_candidate i j
  refine ⟨_, he, ?_⟩
  have hq : (15959601 : ℝ) / 6400 < y ^ 2 := by
    rw [hy2]
    fin_cases i <;> fin_cases j <;> simp [scenario_count] at h ⊢ <;> norm_num
  have hypos : 0 < y := by
    rcases hy0.lt_or_eq with hp | hz
    · exact hp
    · rw [← hz] at hq
      norm_num at hq
  have hlt : Real.sqrt (15959601 / 6400) < y := (Real.sqrt_lt' hypos).2 hq
  have hle : y + 50 ≤ Real.sqrt (|(|(500 + (scenario_count i : ℝ) / 80) ^ 2
      - (500 + (scenario_count j : ℝ) / 80) ^ 2 + 1000 ^ 2| / (2 * 1000)) - 500| ^ 2
      + |y - -50| ^ 2) := by
    apply (Real.le_sqrt' (by linarith)).2
    rw [sq_abs, sq_abs]
    nlinarith [sq_nonneg (|(500 + (scenario_count i : ℝ) / 80) ^ 2
      - (500 + (scenario_count j : ℝ) / 80) ^ 2 + 1000 ^ 2| / (2 * 1000) - 500)]
  linarith

/-- The search of the scenario ends on the floor/floor candidate. -/
theorem scenario_search :
    (Convert_Geometry.search scenario_settings 1000 origin_steps scenario_target)._NEW
        = { x := fin 500, y := fin (Real.sqrt (15959601 / 6400)) }
      ∧ (Convert_Geometry.search scenario_settings 1000 origin_steps scenario_target).to_M X_AXIS
        = fin (500 + 199 / 80)
      ∧ (Convert_Geometry.search scenario_settings 1000 origin_steps scenario_target).to_M Y_AXIS
        = fin (500 + 199 / 80) := by
  have hX : scenario_settings.steps_per_mm X_AXIS ≠ 0 := by simp [scenario_settings]
  have hY : scenario_settings.steps_per_mm Y_AXIS ≠ 0 := by simp [scenario_settings]
  obtain ⟨fx, fy, fe⟩ := scenario_first
  have hsmall : Real.sqrt (15959601 / 6400) < 100 :=
    (Real.sqrt_lt' (by norm_num)).2 (by norm_num)
  rcases Convert_Geometry.search_cases scenario_settings 1000 origin_steps scenario_target with
    ⟨-, hall⟩ | ⟨i, j, -, ⟨-, hnew, h0, h1, -⟩, hmin⟩
  · refine absurd ?_ (hall 0 0)
    rw [fe, lt_fin]
    linarith
  · by_cases hij : i = 0 ∧ j = 0
    · obtain ⟨rfl, rfl⟩ := hij
      rw [Convert_Geometry.candidate_to_M scenario_settings 1000 origin_steps scenario_target
        hX hY] at h0 h1
      rw [hnew, fx, fy, h0, h1]
      simp [scenario_len, scenario_count]
    · obtain ⟨e, he, hlt⟩ := scenario_other i j hij
      refine absurd ?_ (hmin 0 0)
      rw [fe, he, lt_fin]
      exact hlt

/-- C7, as amended. In the scenario (width 1000, home `(500, 0)`, 80 steps per
millimetre, current steps `(0, 0)`, target `(0, 50)`) `Convert_Geometry` computes
`from_M = (500, 500)` and selects the floor/floor candidate, 199 steps on each motor;
its reconstructed point, in the native frame, is `(0, -sqrt (15959601/6400))`: the
abscissa is that of the target, the ordinate lies between `-50` and `-49`. -/
theorem planned_move_scenario :
    Convert_Geometry.from_M scenario_settings 1000 origin_steps = ![fin 500, fin 500, fin 0]
      ∧ (Convert_Geometry.search scenario_settings 1000 origin_steps scenario_target).to_M X_AXIS
          = fin (500 + 199 / 80)
      ∧ (Convert_Geometry.search scenario_settings 1000 origin_steps scenario_target).to_M Y_AXIS
          = fin (500 + 199 / 80)
      ∧ TO_OLD_GEOMETRY scenario_settings
          (Convert_Geometry.search scenario_settings 1000 origin_steps scenario_target)._NEW
          = { x := fin 0, y := fin (-Real.sqrt (15959601 / 6400)) }
      ∧ 49 < Real.sqrt (15959601 / 6400) ∧ Real.sqrt (15959601 / 6400) < 50 := by
  have hX : scenario_settings.steps_per_mm X_AXIS ≠ 0 := by simp [scenario_settings]
  have hY : scenario_settings.steps_per_mm Y_AXIS ≠ 0 := by simp [scenario_settings]
  obtain ⟨hnew, h0, h1⟩ := scenario_search
  refine ⟨?_, h0, h1, ?_, (Real.lt_sqrt (by norm_num)).2 (by norm_num),
    (Real.sqrt_lt' (by norm_num)).2 (by norm_num)⟩
  · rw [Convert_Geometry.from_M_fin scenario_settings 1000 origin_steps hX hY, scenario_from]
    simp
  · rw [hnew]
    simp [TO_OLD_GEOMETRY, scenario_settings]

/-- C7, counterexample. In the scenario the ordinate of the selected candidate's point,
in the native frame, is not within `1/80` of the target ordinate 50. -/
theorem planned_move_counterexample :
    ∃ y, (TO_OLD_GEOMETRY scenario_settings
          (Convert_Geometry.search scenario_settings 1000 origin_steps scenario_target)._NEW).y
        = fin y
      ∧ ¬ |y - scenario_target Y_AXIS| < 1 / 80 := by
  obtain ⟨hnew, -, -⟩ := scenario_search
  refine ⟨-Real.sqrt (15959601 / 6400), ?_, ?_⟩
  · rw [hnew]
    simp [TO_OLD_GEOMETRY, scenario_settings]
  · have h0 := Real.sqrt_nonneg (15959601 / 6400)
    have ht : scenario_target Y_AXIS = 50 := by simp [scenario_target]
    rw [ht, abs_lt]
    intro h
    linarith [h.1]

/-! ## `Geometry_system_position` in closed form -/

theorem Geometry_system_position.result (settings : settings_t) (W : ℝ) (axis : Fin N_AXIS)
    (direction : Bool) (sp : Fin N_AXIS → CFloat) :
    Geometry_system_position settings W axis direction sp X_AXIS
        = sp X_AXIS
          + (((Geometry_system_position.to_p settings W axis direction sp).x
                - fin settings.homing_x)
              - ((Geometry_system_position.from_p settings sp).x - fin settings.homing_x))
            * fin (settings.steps_per_mm X_AXIS)
      ∧ Geometry_system_position settings W axis direction sp Y_AXIS
        = sp Y_AXIS
          + ((-(Geometry_system_position.to_p settings W axis direction sp).y
                + fin settings.homing_y)
              - (-(Geometry_system_position.from_p settings sp).y + fin settings.homing_y))
            * fin (settings.steps_per_mm Y_AXIS)
      ∧ Geometry_system_position settings W axis direction sp Z_AXIS = sp Z_AXIS := by
  have hxy : X_AXIS ≠ Y_AXIS := by decide
  have hxz : X_AXIS ≠ Z_AXIS := by decide
  have hyz : Y_AXIS ≠ Z_AXIS := by decide
  refine ⟨?_, ?_, ?_⟩ <;>
    simp [Geometry_system_position, TO_OLD_GEOMETRY, Function.update, hxy, hxz, hyz,
      hxz.symm, hyz.symm]

theorem Geometry_system_position.tracked_from_p_fin (settings : settings_t)
    (sp : Fin N_AXIS → CFloat) (px py : ℝ) (hpx : sp X_AXIS = fin px) (hpy : sp Y_AXIS = fin py)
    (hX : settings.steps_per_mm X_AXIS ≠ 0) (hY : settings.steps_per_mm Y_AXIS ≠ 0) :
    Geometry_system_position.from_p settings sp
      = { x := fin (px / settings.steps_per_mm X_AXIS + settings.homing_x)
          y := fin (-(py / settings.steps_per_mm Y_AXIS - settings.homing_y)) } := by
  simp [Geometry_system_position.from_p, TO_NEW_GEOMETRY, hpx, hpy, fin_div _ hX, fin_div _ hY]

theorem Geometry_system_position.tracked_to_M_fin (settings : settings_t) (W : ℝ) (axis : Fin N_AXIS)
    (direction : Bool) (sp : Fin N_AXIS → CFloat) {fx fy : ℝ}
    (hf : Geometry_system_position.from_p settings sp = { x := fin fx, y := fin fy })
    (hX : settings.steps_per_mm X_AXIS ≠ 0) (hY : settings.steps_per_mm Y_AXIS ≠ 0) :
    Geometry_system_position.to_M settings W axis direction sp
      = ![fin (cable W fx fy 0
            + (step_unit axis X_AXIS direction : ℝ) / settings.steps_per_mm X_AXIS),
          fin (cable W fx fy 1
            + (step_unit axis Y_AXIS direction : ℝ) / settings.steps_per_mm Y_AXIS),
          fin 0] := by
  simp [Geometry_system_position.to_M, Geometry_system_position.from_M, hf, fin_div _ hX,
    fin_div _ hY, cable, step_unit]

/-! ## The single-step scenario -/

/-- One step forward on the X axis from the tracked position `(0, 0)`: the tracked
position becomes `(80001/160000, -80 * y1)` steps, where `y1 > 0` is the height of the
triangle with sides `500 + 1/80`, `500` on the base 1000. -/
theorem scenario_forward :
    ∃ y1 : ℝ, 0 < y1 ∧ y1 ^ 2 = 1024006399839999 / 163840000000000
      ∧ Geometry_system_position scenario_settings 1000 X_AXIS true tracked_origin X_AXIS
          = fin (80001 / 160000)
      ∧ Geometry_system_position scenario_settings 1000 X_AXIS true tracked_origin Y_AXIS
          = fin (-(y1 * 80)) := by
  have hX : scenario_settings.steps_per_mm X_AXIS ≠ 0 := by simp [scenario_settings]
  have hY : scenario_settings.steps_per_mm Y_AXIS ≠ 0 := by simp [scenario_settings]
  have hf : Geometry_system_position.from_p scenario_settings tracked_origin
      = { x := fin 500, y := fin 0 } := by
    rw [Geometry_system_position.tracked_from_p_fin scenario_settings tracked_origin
      0 0 rfl rfl hX hY]
    simp [scenario_settings]
  have hc : cable 1000 500 0 = ![500, 500] :=
    cable_eq (by norm_num) (by norm_num) (by norm_num) (by norm_num)
  have hto := Geometry_system_position.tracked_to_M_fin scenario_settings 1000 X_AXIS true
    tracked_origin hf hX hY
  rw [hc] at hto
  have hx0 : Geometry_system_position.to_M scenario_settings 1000 X_AXIS true tracked_origin
      X_AXIS = fin (500 + 1 / 80) := by
    rw [hto]
    simp [step_unit, scenario_settings]
  have hy0 : Geometry_system_position.to_M scenario_settings 1000 X_AXIS true tracked_origin
      Y_AXIS = fin 500 := by
    rw [hto]
    simp [step_unit, scenario_settings]
  obtain ⟨y1, hr, hy1, hq⟩ := reconstruct_apex 1000 (500 + 1 / 80) 500
    (by norm_num) (by norm_num) (by norm_num) (by norm_num)
  have hq1 : y1 ^ 2 = 1024006399839999 / 163840000000000 := by
    rw [hq]
    norm_num
  have hx1 : |((500 : ℝ) + 1 / 80) ^ 2 - 500 ^ 2 + 1000 ^ 2| / (2 * 1000)
      = 6400080001 / 12800000 := by
    rw [abs_of_pos (by norm_num)]
    norm_num
  rw [hx1] at hr
  have hp : Geometry_system_position.to_p scenario_settings 1000 X_AXIS true tracked_origin
      = { x := fin (6400080001 / 12800000), y := fin y1 } := by
    rw [Geometry_system_position.to_p_eq, hx0, hy0, hr]
  have hypos : 0 < y1 := by
    rcases hy1.lt_or_eq with h | h
    · exact h
    · rw [← h] at hq1
      norm_num at hq1
  obtain ⟨rX, rY, -⟩ := Geometry_system_position.result scenario_settings 1000 X_AXIS true
    tracked_origin
  refine ⟨y1, hypos, hq1, ?_, ?_⟩
  · rw [rX, hp, hf]
    simp [tracked_origin, scenario_settings]
    norm_num
  · rw [rY, hp, hf]
    simp [tracked_origin, scenario_settings]

/-- C9. In the scenario, one call `Geometry_system_position(X_AXIS, +1)` from the tracked
position `(0, 0)` changes the tracked position by a non-zero amount on the X and on
the Y axis. -/
theorem single_step_diagonal_coupling :
    tracked_origin X_AXIS = fin 0 ∧ tracked_origin Y_AXIS = fin 0
      ∧ ∃ px py : ℝ,
          Geometry_system_position scenario_settings 1000 X_AXIS true tracked_origin X_AXIS
            = fin px
          ∧ Geometry_system_position scenario_settings 1000 X_AXIS true tracked_origin Y_AXIS
            = fin py
          ∧ px - 0 ≠ 0 ∧ py - 0 ≠ 0 := by
  obtain ⟨y1, hy1, -, hx, hy⟩ := scenario_forward
  refine ⟨rfl, rfl, _, _, hx, hy, by norm_num, ?_⟩
  have : 0 < y1 * 80 := by positivity
  rw [sub_zero]
  exact (neg_lt_zero.2 this).ne

/-- C8. In the scenario, a step forward on the X axis followed by a step backward on the
X axis leaves the tracked position within one step of `(0, 0)` on each axis; in exact
arithmetic it is `(0, 0)` again. -/
theorem single_step_round_trip :
    ∃ qx qy : ℝ,
      Geometry_system_position scenario_settings 1000 X_AXIS false
          (Geometry_system_position scenario_settings 1000 X_AXIS true tracked_origin) X_AXIS
          = fin qx
        ∧ Geometry_system_position scenario_settings 1000 X_AXIS false
            (Geometry_system_position scenario_settings 1000 X_AXIS true tracked_origin) Y_AXIS
          = fin qy
        ∧ |qx - 0| ≤ 1 ∧ |qy - 0| ≤ 1 ∧ qx = 0 ∧ qy = 0 := by
  have hX : scenario_settings.steps_per_mm X_AXIS ≠ 0 := by simp [scenario_settings]
  have hY : scenario_settings.steps_per_mm Y_AXIS ≠ 0 := by simp [scenario_settings]
  obtain ⟨y1, hy1, hq1, hx, hy⟩ := scenario_forward
  have hf : Geometry_system_position.from_p scenario_settings
      (Geometry_system_position scenario_settings 1000 X_AXIS true tracked_origin)
      = { x := fin (6400080001 / 12800000), y := fin y1 } := by
    rw [Geometry_system_position.tracked_from_p_fin scenario_settings _ _ _ hx hy hX hY]
    simp only [scenario_settings, point.mk.injEq, CFloat.fin.injEq]
    constructor
    · norm_num
    · ring
  have hc : cable 1000 (6400080001 / 12800000) y1 = ![500 + 1 / 80, 500] :=
    cable_eq (by norm_num) (by norm_num) (by rw [hq1]; norm_num) (by rw [hq1]; norm_num)
  have hto := Geometry_system_position.tracked_to_M_fin scenario_settings 1000 X_AXIS false
    (Geometry_system_position scenario_settings 1000 X_AXIS true tracked_origin) hf hX hY
  rw [hc] at hto
  have hx0 : Geometry_system_position.to_M scenario_settings 1000 X_AXIS false
      (Geometry_system_position scenario_settings 1000 X_AXIS true tracked_origin) X_AXIS
      = fin 500 := by
    rw [hto]
    simp [step_unit, scenario_settings]
    norm_num
  have hy0 : Geometry_system_position.to_M scenario_settings 1000 X_AXIS false
      (Geometry_system_position scenario_settings 1000 X_AXIS true tracked_origin) Y_AXIS
      = fin 500 := by
    rw [hto]
    simp [step_unit, scenario_settings]
  have hr : reconstruct 1000 (fin 500) (fin 500) = { x := fin 500, y := fin 0 } := by
    rw [reconstruct_eval (r := 0) (by norm_num) le_rfl
      (by rw [abs_of_pos (by norm_num : (0 : ℝ) < 500)]; unfold heron; norm_num)]
    norm_num
  have hp : Geometry_system_position.to_p scenario_settings 1000 X_AXIS false
      (Geometry_system_position scenario_settings 1000 X_AXIS true tracked_origin)
      = { x := fin 500, y := fin 0 } := by
    rw [Geometry_system_position.to_p_eq, hx0, hy0, hr]
  obtain ⟨rX, rY, -⟩ := Geometry_system_position.result scenario_settings 1000 X_AXIS false
    (Geometry_system_position scenario_settings 1000 X_AXIS true tracked_origin)
  refine ⟨0, 0, ?_, ?_, by norm_num, by norm_num, rfl, rfl⟩
  · rw [rX, hp, hf, hx]
    simp [scenario_settings]
    norm_num
  · rw [rY, hp, hf, hy]
    simp [scenario_settings]

/-! ## Tie-breaking of the search -/

/-- The loop invariant of the search with the order of the visits: the candidate the
search ends on is not beaten by any candidate and no candidate visited before it has
the same error. -/
theorem Convert_Geometry.search_fold_rank (f : Fin 2 × Fin 2 → Candidate)
    (ps : List (Fin 2 × Fin 2))
    (hs : ps.Pairwise (fun a b => visit_rank a < visit_rank b)) (st : SearchState) :
    ((ps.map f).foldl Convert_Geometry.search_step st = st
        ∧ ∀ q ∈ ps, ¬ lt (f q)._ERROR st.ERROR)
      ∨ ∃ p ∈ ps, lt (f p)._ERROR st.ERROR
          ∧ Adopted st ((ps.map f).foldl Convert_Geometry.search_step st) (f p)
          ∧ (∀ q ∈ ps, ¬ lt (f q)._ERROR (f p)._ERROR)
          ∧ ∀ q ∈ ps, visit_rank q < visit_rank p → (f q)._ERROR ≠ (f p)._ERROR := by
  induction ps generalizing st with
  | nil => exact Or.inl ⟨rfl, fun q hq => absurd hq (List.not_mem_nil q)⟩
  | cons p ps ih =>
    rw [List.pairwise_cons] at hs
    obtain ⟨hp, hs⟩ := hs
    rw [List.map_cons, List.foldl_cons]
    by_cases hlt : lt (f p)._ERROR st.ERROR
    · have hstep : Convert_Geometry.search_step st (f p) =
          { ERROR := (f p)._ERROR, to_M := ![(f p)._to_M 0, (f p)._to_M 1, st.to_M 2],
            _NEW := { x := (f p)._x, y := (f p)._y } } := by
        simp [Convert_Geometry.search_step, hlt]
      have hown : Adopted st (Convert_Geometry.search_step st (f p)) (f p) := by
        rw [hstep]
        exact ⟨rfl, rfl, rfl, rfl, rfl⟩
      have herr : (Convert_Geometry.search_step st (f p)).ERROR = (f p)._ERROR := hown.1
      right
      rcases ih hs (Convert_Geometry.search_step st (f p)) with
        ⟨heq, hall⟩ | ⟨d, hd, hdlt, had, hmin, hfirst⟩
      · refine ⟨p, List.mem_cons_self p ps, hlt, ?_, ?_, ?_⟩
        · rw [heq]
          exact hown
        · intro q hq
          rcases List.mem_cons.1 hq with rfl | hq
          · exact CFloat.lt_irrefl_fl _
          · have := hall q hq
            rwa [herr] at this
        · intro q hq hr
          rcases List.mem_cons.1 hq with rfl | hq
          · exact absurd hr (Nat.lt_irrefl _)
          · exact absurd (hp q hq) (Nat.lt_asymm hr)
      · rw [herr] at hdlt
        refine ⟨d, List.mem_cons_of_mem p hd, CFloat.lt_trans_fl hdlt hlt, ?_, ?_, ?_⟩
        · obtain ⟨a1, a2, a3, a4, a5⟩ := had
          exact ⟨a1, a2, a3, a4, a5.trans hown.2.2.2.2⟩
        · intro q hq
          rcases List.mem_cons.1 hq with rfl | hq
          · intro hcd
            exact CFloat.lt_irrefl_fl _ (CFloat.lt_trans_fl hcd hdlt)
          · exact hmin q hq
        · intro q hq hr
          rcases List.mem_cons.1 hq with rfl | hq
          · intro heq
            rw [heq] at hdlt
            exact CFloat.lt_irrefl_fl _ hdlt
          · exact hfirst q hq hr
    · have hstep : Convert_Geometry.search_step st (f p) = st := by
        simp [Convert_Geometry.search_step, hlt]
      rw [hstep]
      rcases ih hs st with ⟨heq, hall⟩ | ⟨d, hd, hdlt, had, hmin, hfirst⟩
      · left
        refine ⟨heq, fun q hq => ?_⟩
        rcases List.mem_cons.1 hq with rfl | hq
        · exact hlt
        · exact hall q hq
      · right
        refine ⟨d, List.mem_cons_of_mem p hd, hdlt, had, ?_, ?_⟩
        · intro q hq
          rcases List.mem_cons.1 hq with rfl | hq
          · intro hcd
            exact hlt (CFloat.lt_trans_fl hcd hdlt)
          · exact hmin q hq
        · intro q hq hr
          rcases List.mem_cons.1 hq with rfl | hq
          · intro heq
            rw [heq] at hlt
            exact hlt hdlt
          · exact hfirst q hq hr

theorem Convert_Geometry.order_sorted :
    Convert_Geometry.order.Pairwise (fun a b => visit_rank a < visit_rank b) := by
  simp [Convert_Geometry.order, visit_rank]

theorem Convert_Geometry.mem_order (p : Fin 2 × Fin 2) : p ∈ Convert_Geometry.order := by
  obtain ⟨i, j⟩ := p
  fin_cases i <;> fin_cases j <;> simp [Convert_Geometry.order]

theorem visit_rank_injective (p q : Fin 2 × Fin 2) (h : visit_rank p = visit_rank q) :
    p = q := by
  obtain ⟨i, j⟩ := p
  obtain ⟨k, l⟩ := q
  fin_cases i <;> fin_cases j <;> fin_cases k <;> fin_cases l <;>
    simp [visit_rank] at h ⊢

/-- The candidate with the minimum error that is visited first is the one the search
ends on. -/
theorem Convert_Geometry.search_first_min (settings : settings_t) (W : ℝ)
    (pp : Fin N_AXIS → ℤ) (target : Fin N_AXIS → ℝ) (p : Fin 2 × Fin 2) (e : ℝ)
    (he : (Convert_Geometry.candidate settings W pp target p.1 p.2)._ERROR = fin e)
    (hb : e < 100000)
    (hmin : ∀ (q : Fin 2 × Fin 2) (e' : ℝ),
      (Convert_Geometry.candidate settings W pp target q.1 q.2)._ERROR = fin e' → e ≤ e')
    (hfirst : ∀ q : Fin 2 × Fin 2, visit_rank q < visit_rank p →
      (Convert_Geometry.candidate settings W pp target q.1 q.2)._ERROR ≠ fin e) :
    Adopted (Convert_Geometry.search_init settings W target)
      (Convert_Geometry.search settings W pp target)
      (Convert_Geometry.candidate settings W pp target p.1 p.2) := by
  rcases Convert_Geometry.search_fold_rank
      (fun ij => Convert_Geometry.candidate settings W pp target ij.1 ij.2)
      Convert_Geometry.order Convert_Geometry.order_sorted
      (Convert_Geometry.search_init settings W target) with
    ⟨-, hall⟩ | ⟨p0, -, hlt, had, hnb, hfst⟩
  · refine absurd ?_ (hall p (Convert_Geometry.mem_order p))
    show lt (Convert_Geometry.candidate settings W pp target p.1 p.2)._ERROR (fin 100000)
    rw [he]
    exact hb
  · have hlt0 : lt (Convert_Geometry.candidate settings W pp target p0.1 p0.2)._ERROR
        (fin 100000) := hlt
    have hnb0 : ¬ lt (Convert_Geometry.candidate settings W pp target p.1 p.2)._ERROR
        (Convert_Geometry.candidate settings W pp target p0.1 p0.2)._ERROR :=
      hnb p (Convert_Geometry.mem_order p)
    have hfst0 : visit_rank p < visit_rank p0 →
        (Convert_Geometry.candidate settings W pp target p.1 p.2)._ERROR
          ≠ (Convert_Geometry.candidate settings W pp target p0.1 p0.2)._ERROR :=
      hfst p (Convert_Geometry.mem_order p)
    cases he0 : (Convert_Geometry.candidate settings W pp target p0.1 p0.2)._ERROR with
    | nan =>
      rw [he0] at hlt0
      exact absurd hlt0 (not_lt_nan_left _)
    | fin e0 =>
      rw [he, he0, lt_fin] at hnb0
      have hee : e0 = e := le_antisymm (not_lt.1 hnb0) (hmin p0 e0 he0)
      rw [hee] at he0
      have hpp : p0 = p := by
        rcases Nat.lt_trichotomy (visit_rank p0) (visit_rank p) with h | h | h
        · exact absurd he0 (hfirst p0 h)
        · exact visit_rank_injective p0 p h
        · exact absurd (he.trans he0.symm) (hfst0 h)
      rw [hpp] at had
      exact had

/-- C11. The candidates are visited in the order floor/floor, floor/ceil, ceil/floor,
ceil/ceil (index 0 is the floor, index 1 the ceil); a visited candidate leaves the
search state untouched unless its error is strictly smaller than the kept one; and
when the candidate `p` has the minimum error `e` (below the initial bound) and no
candidate visited before `p` has the error `e`, then `p` is the candidate the search
ends on. -/
theorem tie_breaking_first_wins (settings : settings_t) (W : ℝ) (pp : Fin N_AXIS → ℤ)
    (target : Fin N_AXIS → ℝ) (p : Fin 2 × Fin 2) (e : ℝ)
    (he : (Convert_Geometry.candidate settings W pp target p.1 p.2)._ERROR = fin e)
    (hb : e < 100000)
    (hmin : ∀ (q : Fin 2 × Fin 2) (e' : ℝ),
      (Convert_Geometry.candidate settings W pp target q.1 q.2)._ERROR = fin e' → e ≤ e')
    (hfirst : ∀ q : Fin 2 × Fin 2, visit_rank q < visit_rank p →
      (Convert_Geometry.candidate settings W pp target q.1 q.2)._ERROR ≠ fin e) :
    Convert_Geometry.order = [(0, 0), (0, 1), (1, 0), (1, 1)]
      ∧ (∀ (st : SearchState) (c : Candidate), ¬ lt c._ERROR st.ERROR →
          Convert_Geometry.search_step st c = st)
      ∧ (Convert_Geometry.search settings W pp target)._NEW
          = { x := (Convert_Geometry.candidate settings W pp target p.1 p.2)._x,
              y := (Convert_Geometry.candidate settings W pp target p.1 p.2)._y }
      ∧ (Convert_Geometry.search settings W pp target).to_M X_AXIS
          = (Convert_Geometry.candidate settings W pp target p.1 p.2)._to_M 0
      ∧ (Convert_Geometry.search settings W pp target).to_M Y_AXIS
          = (Convert_Geometry.candidate settings W pp target p.1 p.2)._to_M 1
      ∧ (Convert_Geometry.search settings W pp target).ERROR = fin e := by
  obtain ⟨a1, a2, a3, a4, -⟩ :=
    Convert_Geometry.search_first_min settings W pp target p e he hb hmin hfirst
  exact ⟨rfl, fun st c hc => by simp [Convert_Geometry.search_step, hc], a2, a3, a4,
    a1.trans he⟩

/-- Witness of `tie_breaking_first_wins`: in the 3-4-5 example all four candidates
have error 0 and the search ends on the first one, floor/floor. -/
theorem tie_breaking_first_wins_witness :
    Convert_Geometry.order = [(0, 0), (0, 1), (1, 0), (1, 1)]
      ∧ (∀ (st : SearchState) (c : Candidate), ¬ lt c._ERROR st.ERROR →
          Convert_Geometry.search_step st c = st)
      ∧ (Convert_Geometry.search unit_settings 6 origin_steps ![3, -4, 0])._NEW
          = { x := (Convert_Geometry.candidate unit_settings 6 origin_steps ![3, -4, 0] 0 0)._x,
              y := (Convert_Geometry.candidate unit_settings 6 origin_steps ![3, -4, 0] 0 0)._y }
      ∧ (Convert_Geometry.search unit_settings 6 origin_steps ![3, -4, 0]).to_M X_AXIS
          = (Convert_Geometry.candidate unit_settings 6 origin_steps ![3, -4, 0] 0 0)._to_M 0
      ∧ (Convert_Geometry.search unit_settings 6 origin_steps ![3, -4, 0]).to_M Y_AXIS
          = (Convert_Geometry.candidate unit_settings 6 origin_steps ![3, -4, 0] 0 0)._to_M 1
      ∧ (Convert_Geometry.search unit_settings 6 origin_steps ![3, -4, 0]).ERROR = fin 0 :=
  tie_breaking_first_wins unit_settings 6 origin_steps ![3, -4, 0] (0, 0) 0
    (Convert_Geometry.example_345 0 0) (by norm_num)
    (fun q e' hq => by
      rw [Convert_Geometry.example_345] at hq
      exact (CFloat.fin.inj hq).le)
    (fun q hq => absurd hq (Nat.not_lt_zero _))

/-! ## What `Convert_Geometry` writes -/

theorem Convert_Geometry.step_event_count_eq (settings : settings_t) (W : ℝ)
    (mask : Fin N_AXIS → ℕ) (st : State) :
    (Convert_Geometry settings W mask st).block.step_event_count
      = max (max (max st.block.step_event_count
            ((Convert_Geometry settings W mask st).block.steps X_AXIS))
          ((Convert_Geometry settings W mask st).block.steps Y_AXIS))
        ((Convert_Geometry settings W mask st).block.steps Z_AXIS) := by
  rw [Convert_Geometry.steps_eq, Convert_Geometry.steps_eq, Convert_Geometry.steps_eq]
  simp [Convert_Geometry, List.foldl, Convert_Geometry.axis_body, Convert_Geometry.delta_mm]

theorem Convert_Geometry.millimeters_eq (settings : settings_t) (W : ℝ)
    (mask : Fin N_AXIS → ℕ) (st : State) :
    (Convert_Geometry settings W mask st).block.millimeters
      = sqrt (fin 0
          + Convert_Geometry.delta_mm settings W st.planner_position st.target X_AXIS
            * Convert_Geometry.delta_mm settings W st.planner_position st.target X_AXIS
          + Convert_Geometry.delta_mm settings W st.planner_position st.target Y_AXIS
            * Convert_Geometry.delta_mm settings W st.planner_position st.target Y_AXIS
          + Convert_Geometry.delta_mm settings W st.planner_position st.target Z_AXIS
            * Convert_Geometry.delta_mm settings W st.planner_position st.target Z_AXIS) := by
  simp [Convert_Geometry, List.foldl, Convert_Geometry.axis_body, Convert_Geometry.delta_mm]

theorem Convert_Geometry.unit_vec_eq (settings : settings_t) (W : ℝ)
    (mask : Fin N_AXIS → ℕ) (st : State) (idx : Fin N_AXIS) :
    (Convert_Geometry settings W mask st).unit_vec idx
      = Convert_Geometry.delta_mm settings W st.planner_position st.target idx := by
  have hxy : X_AXIS ≠ Y_AXIS := by decide
  have hxz : X_AXIS ≠ Z_AXIS := by decide
  have hyz : Y_AXIS ≠ Z_AXIS := by decide
  rcases axis_cases idx with rfl | rfl | rfl <;>
    simp [Convert_Geometry, List.foldl, Convert_Geometry.axis_body, Convert_Geometry.delta_mm,
      Function.update, hxy, hxz, hyz]

theorem Convert_Geometry.target_steps_eq (settings : settings_t) (W : ℝ)
    (mask : Fin N_AXIS → ℕ) (st : State) (idx : Fin N_AXIS) :
    (Convert_Geometry settings W mask st).target_steps idx
      = toInt (((TO_OLD_GEOMETRY settings
              (Convert_Geometry.search settings W st.planner_position st.target)._NEW).x
            * fin (if idx = X_AXIS then 1 else 0)
          + (TO_OLD_GEOMETRY settings
              (Convert_Geometry.search settings W st.planner_position st.target)._NEW).y
            * fin (if idx = Y_AXIS then 1 else 0))
          * fin (settings.steps_per_mm idx)) := by
  have hxy : X_AXIS ≠ Y_AXIS := by decide
  have hxz : X_AXIS ≠ Z_AXIS := by decide
  have hyz : Y_AXIS ≠ Z_AXIS := by decide
  rcases axis_cases idx with rfl | rfl | rfl <;>
    simp [Convert_Geometry, List.foldl, Convert_Geometry.axis_body, Function.update, hxy, hxz,
      hyz, hxy.symm, hxz.symm, hyz.symm]

/-- The deltas are numbers when the step resolutions are not zero. -/
theorem Convert_Geometry.delta_mm_fin (settings : settings_t) (W : ℝ)
    (pp : Fin N_AXIS → ℤ) (target : Fin N_AXIS → ℝ)
    (hX : settings.steps_per_mm X_AXIS ≠ 0) (hY : settings.steps_per_mm Y_AXIS ≠ 0) :
    ∃ a b, Convert_Geometry.delta_mm settings W pp target X_AXIS = fin a
      ∧ Convert_Geometry.delta_mm settings W pp target Y_AXIS = fin b := by
  rcases Convert_Geometry.search_cases settings W pp target with
    ⟨hs, -⟩ | ⟨i, j, -, had, -⟩
  · obtain ⟨cX, cY⟩ := Convert_Geometry.delta_mm_init settings W pp target hX hY
    refine ⟨contDelta settings W pp target 0, contDelta settings W pp target 1, ?_, ?_⟩
    · unfold Convert_Geometry.delta_mm
      rw [hs]
      exact cX
    · unfold Convert_Geometry.delta_mm
      rw [hs]
      exact cY
  · obtain ⟨dX, dY⟩ := Convert_Geometry.delta_mm_of_adopted settings W pp target i j hX hY had
    exact ⟨_, _, dX, dY⟩

theorem Convert_Geometry.example_345_steps (b n : ℕ) :
    (Convert_Geometry unit_settings 6 sample_direction_pin_mask
        (sample_state ![3, -4, 0] b n)).block.steps X_AXIS = 5
      ∧ (Convert_Geometry unit_settings 6 sample_direction_pin_mask
          (sample_state ![3, -4, 0] b n)).block.steps Y_AXIS = 1
      ∧ (Convert_Geometry unit_settings 6 sample_direction_pin_mask
          (sample_state ![3, -4, 0] b n)).block.steps Z_AXIS = 0 := by
  have e1 : (sample_state ![3, -4, 0] b n).planner_position = origin_steps := rfl
  have e2 : (sample_state ![3, -4, 0] b n).target = ![3, -4, 0] := rfl
  have hd := Convert_Geometry.example_345_delta
  have hz := Convert_Geometry.delta_mm_Z unit_settings 6 origin_steps ![3, -4, 0]
  have t5 : truncR 5 = 5 := by
    have := truncR_intCast 5
    simpa using this
  have t1 : truncR (-1) = -1 := by
    have := truncR_intCast (-1)
    simpa using this
  have t0 : truncR 0 = 0 := by
    have := truncR_intCast 0
    simpa using this
  refine ⟨?_, ?_, ?_⟩
  · rw [Convert_Geometry.steps_eq, e1, e2, hd.1]
    simp [unit_settings, t5]
  · rw [Convert_Geometry.steps_eq, e1, e2, hd.2]
    simp [unit_settings, t1]
  · rw [Convert_Geometry.steps_eq, e1, e2, hz]
    simp [unit_settings, t0]

/-- C12, as amended. After `Convert_Geometry`, `block->step_event_count` is the maximum
of its incoming value and of `block->steps[axis]` over the axes; with an incoming
value 0 it is the maximum of the step counts. -/
theorem step_event_count_is_max (settings : settings_t) (W : ℝ) (mask : Fin N_AXIS → ℕ)
    (st : State) :
    (Convert_Geometry settings W mask st).block.step_event_count
        = max st.block.step_event_count
            (max ((Convert_Geometry settings W mask st).block.steps X_AXIS)
              (max ((Convert_Geometry settings W mask st).block.steps Y_AXIS)
                ((Convert_Geometry settings W mask st).block.steps Z_AXIS)))
      ∧ (st.block.step_event_count = 0 →
          (Convert_Geometry settings W mask st).block.step_event_count
            = max ((Convert_Geometry settings W mask st).block.steps X_AXIS)
                (max ((Convert_Geometry settings W mask st).block.steps Y_AXIS)
                  ((Convert_Geometry settings W mask st).block.steps Z_AXIS))) := by
  have h := Convert_Geometry.step_event_count_eq settings W mask st
  have h1 : (Convert_Geometry settings W mask st).block.step_event_count
        = max st.block.step_event_count
            (max ((Convert_Geometry settings W mask st).block.steps X_AXIS)
              (max ((Convert_Geometry settings W mask st).block.steps Y_AXIS)
                ((Convert_Geometry settings W mask st).block.steps Z_AXIS))) := by
    rw [h, max_assoc, max_assoc]
  refine ⟨h1, fun h0 => ?_⟩
  rw [h1, h0]
  exact Nat.zero_max _

/-- C12, counterexample. In the 3-4-5 example the step counts are 5, 1 and 0; with an
incoming block whose `step_event_count` is 1000 the value after `Convert_Geometry` is
still 1000, not their maximum 5. -/
theorem step_event_count_counterexample :
    (Convert_Geometry unit_settings 6 sample_direction_pin_mask
        (sample_state ![3, -4, 0] 0 1000)).block.step_event_count = 1000
      ∧ max ((Convert_Geometry unit_settings 6 sample_direction_pin_mask
            (sample_state ![3, -4, 0] 0 1000)).block.steps X_AXIS)
          (max ((Convert_Geometry unit_settings 6 sample_direction_pin_mask
              (sample_state ![3, -4, 0] 0 1000)).block.steps Y_AXIS)
            ((Convert_Geometry unit_settings 6 sample_direction_pin_mask
              (sample_state ![3, -4, 0] 0 1000)).block.steps Z_AXIS)) = 5 := by
  obtain ⟨sX, sY, sZ⟩ := Convert_Geometry.example_345_steps 0 1000
  have h := Convert_Geometry.step_event_count_eq unit_settings 6 sample_direction_pin_mask
    (sample_state ![3, -4, 0] 0 1000)
  rw [sX, sY, sZ] at h
  rw [h, sX, sY, sZ]
  exact ⟨rfl, rfl⟩

theorem CFloat.zero_add_fl (a : CFloat) : fin 0 + a = a := by
  cases a <;> simp

theorem CFloat.not_lt_sqrt_zero (a : CFloat) : ¬ lt (sqrt a) (fin 0) := by
  cases a with
  | nan => simp
  | fin r =>
    by_cases h : r < 0
    · rw [sqrt_fin_of_neg h]
      simp
    · rw [sqrt_fin_of_nonneg (not_lt.1 h), lt_fin]
      exact not_lt.2 (Real.sqrt_nonneg r)

/-- C13. After `Convert_Geometry`, whatever the incoming block, `block->millimeters`
is the square root of the sum over the axes of the squared deltas
`to_M[axis] - from_M[axis]` used for the step counts, and it is not negative; for
non-zero step resolutions it is the number `sqrt (a^2 + b^2)` for the deltas `a`, `b`
of the two motors (the delta of the third axis is 0). -/
theorem path_length (settings : settings_t) (W : ℝ) (mask : Fin N_AXIS → ℕ) (st : State) :
    (Convert_Geometry settings W mask st).block.millimeters
        = sqrt (Convert_Geometry.delta_mm settings W st.planner_position st.target X_AXIS
              * Convert_Geometry.delta_mm settings W st.planner_position st.target X_AXIS
            + Convert_Geometry.delta_mm settings W st.planner_position st.target Y_AXIS
              * Convert_Geometry.delta_mm settings W st.planner_position st.target Y_AXIS
            + Convert_Geometry.delta_mm settings W st.planner_position st.target Z_AXIS
              * Convert_Geometry.delta_mm settings W st.planner_position st.target Z_AXIS)
      ∧ ¬ lt (Convert_Geometry settings W mask st).block.millimeters (fin 0)
      ∧ (settings.steps_per_mm X_AXIS ≠ 0 → settings.steps_per_mm Y_AXIS ≠ 0 →
          ∃ a b : ℝ,
            Convert_Geometry.delta_mm settings W st.planner_position st.target X_AXIS = fin a
              ∧ Convert_Geometry.delta_mm settings W st.planner_position st.target Y_AXIS
                  = fin b
              ∧ Convert_Geometry.delta_mm settings W st.planner_position st.target Z_AXIS
                  = fin 0
              ∧ (Convert_Geometry settings W mask st).block.millimeters
                  = fin (Real.sqrt (a ^ 2 + b ^ 2 + 0 ^ 2))
              ∧ 0 ≤ Real.sqrt (a ^ 2 + b ^ 2 + 0 ^ 2)) := by
  have hm := Convert_Geometry.millimeters_eq settings W mask st
  rw [CFloat.zero_add_fl] at hm
  refine ⟨hm, ?_, fun hX hY => ?_⟩
  · rw [hm]
    exact CFloat.not_lt_sqrt_zero _
  · obtain ⟨a, b, ha, hb⟩ := Convert_Geometry.delta_mm_fin settings W st.planner_position
      st.target hX hY
    have hz := Convert_Geometry.delta_mm_Z settings W st.planner_position st.target
    refine ⟨a, b, ha, hb, hz, ?_, Real.sqrt_nonneg _⟩
    rw [hm, ha, hb, hz]
    simp only [fin_mul, fin_add]
    rw [sqrt_fin_of_nonneg
      (add_nonneg (add_nonneg (mul_self_nonneg a) (mul_self_nonneg b)) (mul_self_nonneg 0))]
    congr 2
    ring

/-- C15. `Convert_Geometry` copies `planner_position[X_AXIS]` and
`planner_position[Y_AXIS]` into `sys.position`, leaves the third entry of
`sys.position` alone, and changes neither `planner_position` nor the target array. -/
theorem feedback_resync (settings : settings_t) (W : ℝ) (mask : Fin N_AXIS → ℕ)
    (st : State) :
    (Convert_Geometry settings W mask st).sys_position X_AXIS = st.planner_position X_AXIS
      ∧ (Convert_Geometry settings W mask st).sys_position Y_AXIS = st.planner_position Y_AXIS
      ∧ (Convert_Geometry settings W mask st).sys_position Z_AXIS = st.sys_position Z_AXIS
      ∧ (Convert_Geometry settings W mask st).planner_position = st.planner_position
      ∧ (Convert_Geometry settings W mask st).target = st.target := by
  have hxy : X_AXIS ≠ Y_AXIS := by decide
  have hxz : X_AXIS ≠ Z_AXIS := by decide
  have hyz : Y_AXIS ≠ Z_AXIS := by decide
  refine ⟨?_, ?_, ?_, ?_, ?_⟩ <;>
    simp [Convert_Geometry, List.foldl, Convert_Geometry.axis_body, Function.update, hxy,
      hxz, hyz, hxz.symm, hyz.symm]

/-! ## Sign of the cable lengths -/

theorem half_example_from :
    cable 1 (fromX half_settings origin_steps) (fromY half_settings origin_steps)
      = ![1 / 2, 1 / 2] :=
  cable_eq (by norm_num) (by norm_num)
    (by simp [fromX, fromY, half_settings, origin_steps])
    (by simp [fromX, fromY, half_settings, origin_steps]; norm_num)

theorem half_example_to :
    cable 1 (toX half_settings half_target) (toY half_settings half_target) = ![0, 1] :=
  cable_eq le_rfl (by norm_num)
    (by simp [toX, toY, half_settings, half_target]; norm_num)
    (by simp [toX, toY, half_settings, half_target]; norm_num)

theorem half_example_len (m r : Fin 2) :
    candLen half_settings 1 origin_steps half_target m r = half_len m r := by
  simp only [candLen, stepCount, contDelta, half_example_from, half_example_to]
  fin_cases m <;> fin_cases r
  · show (1 / 2 : ℝ) + ((⌊((0 : ℝ) - 1 / 2) * 1⌋ : ℤ) : ℝ) / 1 = -1 / 2
    have f : ⌊((0 : ℝ) - 1 / 2) * 1⌋ = -1 := by
      rw [Int.floor_eq_iff]
      constructor <;> norm_num
    rw [f]
    norm_num
  · show (1 / 2 : ℝ) + ((⌈((0 : ℝ) - 1 / 2) * 1⌉ : ℤ) : ℝ) / 1 = 1 / 2
    have f : ⌈((0 : ℝ) - 1 / 2) * 1⌉ = 0 := by
      rw [Int.ceil_eq_iff]
      constructor <;> norm_num
    rw [f]
    norm_num
  · show (1 / 2 : ℝ) + ((⌊((1 : ℝ) - 1 / 2) * 1⌋ : ℤ) : ℝ) / 1 = 1 / 2
    have f : ⌊((1 : ℝ) - 1 / 2) * 1⌋ = 0 := by
      rw [Int.floor_eq_iff]
      constructor <;> norm_num
    rw [f]
    norm_num
  · show (1 / 2 : ℝ) + ((⌈((1 : ℝ) - 1 / 2) * 1⌉ : ℤ) : ℝ) / 1 = 3 / 2
    have f : ⌈((1 : ℝ) - 1 / 2) * 1⌉ = 1 := by
      rw [Int.ceil_eq_iff]
      constructor <;> norm_num
    rw [f]
    norm_num

/-- In the half-step example every candidate reconstructs to `(1/2, 0)` and has the
error `1/2`. -/
theorem half_example_candidate (i j : Fin 2) :
    (Convert_Geometry.candidate half_settings 1 origin_steps half_target i j)._x = fin (1 / 2)
      ∧ (Convert_Geometry.candidate half_settings 1 origin_steps half_target i j)._y = fin 0
      ∧ (Convert_Geometry.candidate half_settings 1 origin_steps half_target i j)._ERROR
          = fin (1 / 2) := by
  have hX : half_settings.steps_per_mm X_AXIS ≠ 0 := by simp [half_settings]
  have hY : half_settings.steps_per_mm Y_AXIS ≠ 0 := by simp [half_settings]
  have hp := Convert_Geometry.candidate_point half_settings 1 origin_steps half_target
    hX hY i j
  rw [half_example_len, half_example_len] at hp
  have ha : |half_len 0 i| = 1 / 2 := by
    fin_cases i
    · show |(-1 / 2 : ℝ)| = 1 / 2
      rw [abs_of_neg (by norm_num)]
      norm_num
    · show |(1 / 2 : ℝ)| = 1 / 2
      exact abs_of_pos (by norm_num)
  have hsq : half_len 0 i ^ 2 = 1 / 4 := by
    rw [← sq_abs, ha]
    norm_num
  have hR : heron |half_len 0 i| |half_len 1 j| 1 = 0 ^ 2 := by
    rw [ha]
    fin_cases j
    · show heron (1 / 2) |(1 / 2 : ℝ)| 1 = 0 ^ 2
      rw [abs_of_pos (by norm_num)]
      unfold heron
      norm_num
    · show heron (1 / 2) |(3 / 2 : ℝ)| 1 = 0 ^ 2
      rw [abs_of_pos (by norm_num)]
      unfold heron
      norm_num
  have hx : |half_len 0 i ^ 2 - half_len 1 j ^ 2 + 1 ^ 2| / (2 * 1) = 1 / 2 := by
    rw [hsq]
    fin_cases j
    · show |(1 / 4 : ℝ) - (1 / 2) ^ 2 + 1 ^ 2| / (2 * 1) = 1 / 2
      rw [abs_of_pos (by norm_num)]
      norm_num
    · show |(1 / 4 : ℝ) - (3 / 2) ^ 2 + 1 ^ 2| / (2 * 1) = 1 / 2
      rw [abs_of_neg (by norm_num)]
      norm_num
  have hr : reconstruct 1 (fin (half_len 0 i)) (fin (half_len 1 j))
      = { x := fin (1 / 2), y := fin 0 } := by
    rw [reconstruct_eval (by norm_num) le_rfl hR, hx]
    norm_num
  rw [hr] at hp
  simp only [point.mk.injEq] at hp
  refine ⟨hp.1, hp.2, ?_⟩
  rw [Convert_Geometry.candidate_error, hp.1, hp.2]
  have e1 : toX half_settings half_target = 0 := by
    simp [toX, half_settings, half_target]
    norm_num
  have e2 : toY half_settings half_target = 0 := by
    simp [toY, half_settings, half_target]
  rw [e1, e2]
  simp only [fin_sub, fabs_fin, hypot_fin]
  congr 1
  rw [show |(1 / 2 : ℝ) - 0| ^ 2 + |(0 : ℝ) - 0| ^ 2 = (1 / 2) ^ 2 by
    rw [abs_of_pos (by norm_num)]
    norm_num]
  exact Real.sqrt_sq (by norm_num)

theorem cable_nonneg (W x y : ℝ) (m : Fin 2) : 0 ≤ cable W x y m := by
  unfold cable
  fin_cases m
  · exact Real.sqrt_nonneg _
  · exact Real.sqrt_nonneg _

/-- C14, as amended. For positive step resolutions, `from_M` and the continuous `to_M`
have both components `≥ 0`, and each component of the `to_M` the search ends with is
a number greater than `-1 / steps_per_mm` of its motor: a quantized length can be
negative, by less than one step. -/
theorem cable_lengths_sign (settings : settings_t) (W : ℝ) (pp : Fin N_AXIS → ℤ)
    (target : Fin N_AXIS → ℝ) (hX : 0 < settings.steps_per_mm X_AXIS)
    (hY : 0 < settings.steps_per_mm Y_AXIS) :
    ∃ a0 a1 b0 b1 c0 c1 : ℝ,
      Convert_Geometry.from_M settings W pp X_AXIS = fin a0
        ∧ Convert_Geometry.from_M settings W pp Y_AXIS = fin a1
        ∧ 0 ≤ a0 ∧ 0 ≤ a1
        ∧ Convert_Geometry.to_M settings W target X_AXIS = fin b0
        ∧ Convert_Geometry.to_M settings W target Y_AXIS = fin b1
        ∧ 0 ≤ b0 ∧ 0 ≤ b1
        ∧ (Convert_Geometry.search settings W pp target).to_M X_AXIS = fin c0
        ∧ (Convert_Geometry.search settings W pp target).to_M Y_AXIS = fin c1
        ∧ -(1 / settings.steps_per_mm X_AXIS) < c0
        ∧ -(1 / settings.steps_per_mm Y_AXIS) < c1 := by
  have hX0 : settings.steps_per_mm X_AXIS ≠ 0 := hX.ne.symm
  have hY0 : settings.steps_per_mm Y_AXIS ≠ 0 := hY.ne.symm
  have hfrom := Convert_Geometry.from_M_fin settings W pp hX0 hY0
  have hto := Convert_Geometry.to_M_fin settings W target
  have na0 := cable_nonneg W (fromX settings pp) (fromY settings pp) 0
  have na1 := cable_nonneg W (fromX settings pp) (fromY settings pp) 1
  have nb0 := cable_nonneg W (toX settings target) (toY settings target) 0
  have nb1 := cable_nonneg W (toX settings target) (toY settings target) 1
  have pX : 0 < 1 / settings.steps_per_mm X_AXIS := by positivity
  have pY : 0 < 1 / settings.steps_per_mm Y_AXIS := by positivity
  have hc : ∃ c0 c1 : ℝ,
      (Convert_Geometry.search settings W pp target).to_M X_AXIS = fin c0
        ∧ (Convert_Geometry.search settings W pp target).to_M Y_AXIS = fin c1
        ∧ -(1 / settings.steps_per_mm X_AXIS) < c0
        ∧ -(1 / settings.steps_per_mm Y_AXIS) < c1 := by
    rcases Convert_Geometry.search_cases settings W pp target with
      ⟨hs, -⟩ | ⟨i, j, -, ⟨-, -, h0, h1, -⟩, -⟩
    · refine ⟨cable W (toX settings target) (toY settings target) 0,
        cable W (toX settings target) (toY settings target) 1, ?_, ?_, by linarith,
        by linarith⟩
      · rw [hs]
        show Convert_Geometry.to_M settings W target 0 = _
        rw [hto]
        rfl
      · rw [hs]
        show Convert_Geometry.to_M settings W target 1 = _
        rw [hto]
        rfl
    · rw [Convert_Geometry.candidate_to_M settings W pp target hX0 hY0] at h0 h1
      refine ⟨candLen settings W pp target 0 i, candLen settings W pp target 1 j, h0, h1,
        ?_, ?_⟩
      · have hclose : |(stepCount settings W pp target 0 i : ℝ) / settings.steps_per_mm X_AXIS
            - contDelta settings W pp target 0| < 1 / settings.steps_per_mm X_AXIS := by
          fin_cases i
          · exact floor_div_close hX
          · exact ceil_div_close hX
        have hl := (abs_lt.1 hclose).1
        have hm : motor_spm settings 0 = settings.steps_per_mm X_AXIS := rfl
        unfold candLen
        rw [hm]
        unfold contDelta at hl
        linarith
      · have hclose : |(stepCount settings W pp target 1 j : ℝ) / settings.steps_per_mm Y_AXIS
            - contDelta settings W pp target 1| < 1 / settings.steps_per_mm Y_AXIS := by
          fin_cases j
          · exact floor_div_close hY
          · exact ceil_div_close hY
        have hl := (abs_lt.1 hclose).1
        have hm : motor_spm settings 1 = settings.steps_per_mm Y_AXIS := rfl
        unfold candLen
        rw [hm]
        unfold contDelta at hl
        linarith
  obtain ⟨c0, c1, e0, e1, l0, l1⟩ := hc
  refine ⟨_, _, _, _, c0, c1, ?_, ?_, na0, na1, ?_, ?_, nb0, nb1, e0, e1, l0, l1⟩
  · rw [hfrom]
    rfl
  · rw [hfrom]
    rfl
  · rw [hto]
    rfl
  · rw [hto]
    rfl

/-- Witness of `cable_lengths_sign`: the half-step example. -/
theorem cable_lengths_sign_witness :
    ∃ a0 a1 b0 b1 c0 c1 : ℝ,
      Convert_Geometry.from_M half_settings 1 origin_steps X_AXIS = fin a0
        ∧ Convert_Geometry.from_M half_settings 1 origin_steps Y_AXIS = fin a1
        ∧ 0 ≤ a0 ∧ 0 ≤ a1
        ∧ Convert_Geometry.to_M half_settings 1 half_target X_AXIS = fin b0
        ∧ Convert_Geometry.to_M half_settings 1 half_target Y_AXIS = fin b1
        ∧ 0 ≤ b0 ∧ 0 ≤ b1
        ∧ (Convert_Geometry.search half_settings 1 origin_steps half_target).to_M X_AXIS
            = fin c0
        ∧ (Convert_Geometry.search half_settings 1 origin_steps half_target).to_M Y_AXIS
            = fin c1
        ∧ -(1 / half_settings.steps_per_mm X_AXIS) < c0
        ∧ -(1 / half_settings.steps_per_mm Y_AXIS) < c1 :=
  cable_lengths_sign half_settings 1 origin_steps half_target (by simp [half_settings])
    (by simp [half_settings])

/-- C14, counterexample. With width 1, one step per millimetre, home `(1/2, 0)`,
current steps `(0, 0)` and the target `(-1/2, 0)` (the motor M1), every candidate has
the error `1/2`; the search keeps the first one, floor/floor, whose length to M1 is
`1/2 - 1 = -1/2`. -/
theorem cable_lengths_counterexample :
    (0 : ℝ) < 1 ∧ (∀ idx, 0 < half_settings.steps_per_mm idx)
      ∧ (Convert_Geometry.search half_settings 1 origin_steps half_target).to_M X_AXIS
          = (Convert_Geometry.candidate half_settings 1 origin_steps half_target 0 0)._to_M 0
      ∧ (Convert_Geometry.search half_settings 1 origin_steps half_target).to_M X_AXIS
          = fin (-1 / 2)
      ∧ ¬ (0 : ℝ) ≤ -1 / 2 := by
  have hX : half_settings.steps_per_mm X_AXIS ≠ 0 := by simp [half_settings]
  have hY : half_settings.steps_per_mm Y_AXIS ≠ 0 := by simp [half_settings]
  obtain ⟨-, -, h0, -, -⟩ := Convert_Geometry.search_first_min half_settings 1 origin_steps
    half_target (0, 0) (1 / 2) (half_example_candidate 0 0).2.2 (by norm_num)
    (fun q e' hq => by
      rw [(half_example_candidate q.1 q.2).2.2] at hq
      exact (CFloat.fin.inj hq).le)
    (fun q hq => absurd hq (Nat.not_lt_zero _))
  refine ⟨by norm_num, fun idx => by simp [half_settings], h0, ?_, by norm_num⟩
  rw [h0, Convert_Geometry.candidate_to_M half_settings 1 origin_steps half_target hX hY,
    half_example_len]
  rfl

/-! ## The sentinel of the search and the zero move -/

/-- C19. The search leaves its initial state if and only if at least one of the four
candidates has an error strictly below 100000, and it then ends on a candidate; when
none has, `to_M` keeps the continuous cable lengths, the winning point stays the
machine-frame point `(0, 0)`, which is `(-homing_x, homing_y)` in the native frame, and
`target_steps` is computed from that point. -/
theorem search_sentinel (settings : settings_t) (W : ℝ) (mask : Fin N_AXIS → ℕ)
    (st : State) :
    (Convert_Geometry.search settings W st.planner_position st.target
          ≠ Convert_Geometry.search_init settings W st.target
        ↔ ∃ i j, lt (Convert_Geometry.candidate settings W st.planner_position st.target
            i j)._ERROR (fin 100000))
      ∧ ((∃ i j, lt (Convert_Geometry.candidate settings W st.planner_position st.target
            i j)._ERROR (fin 100000)) →
          ∃ i j,
            (Convert_Geometry.search settings W st.planner_position st.target)._NEW
                = { x := (Convert_Geometry.candidate settings W st.planner_position
                      st.target i j)._x,
                    y := (Convert_Geometry.candidate settings W st.planner_position
                      st.target i j)._y }
              ∧ (Convert_Geometry.search settings W st.planner_position st.target).to_M X_AXIS
                = (Convert_Geometry.candidate settings W st.planner_position
                    st.target i j)._to_M 0
              ∧ (Convert_Geometry.search settings W st.planner_position st.target).to_M Y_AXIS
                = (Convert_Geometry.candidate settings W st.planner_position
                    st.target i j)._to_M 1)
      ∧ ((∀ i j, ¬ lt (Convert_Geometry.candidate settings W st.planner_position st.target
            i j)._ERROR (fin 100000)) →
          (Convert_Geometry.search settings W st.planner_position st.target).to_M
              = Convert_Geometry.to_M settings W st.target
            ∧ (Convert_Geometry.search settings W st.planner_position st.target)._NEW
              = { x := fin 0, y := fin 0 }
            ∧ TO_OLD_GEOMETRY settings
                (Convert_Geometry.search settings W st.planner_position st.target)._NEW
              = { x := fin (-settings.homing_x), y := fin settings.homing_y }
            ∧ (Convert_Geometry settings W mask st).target_steps X_AXIS
              = toInt (fin (-settings.homing_x) * fin (settings.steps_per_mm X_AXIS))
            ∧ (Convert_Geometry settings W mask st).target_steps Y_AXIS
              = toInt (fin settings.homing_y * fin (settings.steps_per_mm Y_AXIS))
            ∧ (Convert_Geometry settings W mask st).target_steps Z_AXIS = 0) := by
  have hcases := Convert_Geometry.search_cases settings W st.planner_position st.target
  refine ⟨⟨fun hne => ?_, fun hex heq => ?_⟩, fun hex => ?_, fun hnone => ?_⟩
  · rcases hcases with ⟨hs, -⟩ | ⟨i, j, hlt, -, -⟩
    · exact absurd hs hne
    · exact ⟨i, j, hlt⟩
  · rcases hcases with ⟨-, hall⟩ | ⟨i, j, hlt, ⟨hE, -⟩, -⟩
    · obtain ⟨i, j, hij⟩ := hex
      exact hall i j hij
    · rw [heq] at hE
      rw [← hE] at hlt
      exact CFloat.lt_irrefl_fl _ hlt
  · rcases hcases with ⟨-, hall⟩ | ⟨i, j, -, ⟨-, a2, a3, a4, -⟩, -⟩
    · obtain ⟨i, j, hij⟩ := hex
      exact absurd hij (hall i j)
    · exact ⟨i, j, a2, a3, a4⟩
  · have hs : Convert_Geometry.search settings W st.planner_position st.target
        = Convert_Geometry.search_init settings W st.target := by
      rcases hcases with ⟨hs, -⟩ | ⟨i, j, hlt, -, -⟩
      · exact hs
      · exact absurd hlt (hnone i j)
    have hold : TO_OLD_GEOMETRY settings
        (Convert_Geometry.search settings W st.planner_position st.target)._NEW
        = { x := fin (-settings.homing_x), y := fin settings.homing_y } := by
      rw [hs]
      simp [Convert_Geometry.search_init, TO_OLD_GEOMETRY]
    have t0 : truncR 0 = 0 := by
      have := truncR_intCast 0
      simpa using this
    refine ⟨by rw [hs]; rfl, by rw [hs]; rfl, hold, ?_, ?_, ?_⟩
    · rw [Convert_Geometry.target_steps_eq, hold]
      have hne : X_AXIS ≠ Y_AXIS := by decide
      simp [hne]
    · rw [Convert_Geometry.target_steps_eq, hold]
      have hne : Y_AXIS ≠ X_AXIS := by decide
      simp [hne]
    · rw [Convert_Geometry.target_steps_eq, hold]
      have hne1 : Z_AXIS ≠ X_AXIS := by decide
      have hne2 : Z_AXIS ≠ Y_AXIS := by decide
      simp [hne1, hne2, t0]

/-- Witness of `search_sentinel`: the far target, where every candidate has the error
100000 and none is adopted. -/
theorem search_sentinel_witness :
    (∀ i j, ¬ lt (Convert_Geometry.candidate unit_settings 37500
          (sample_state ![0, 50000, 0] 0 0).planner_position
          (sample_state ![0, 50000, 0] 0 0).target i j)._ERROR (fin 100000))
      ∧ (Convert_Geometry.search unit_settings 37500
            (sample_state ![0, 50000, 0] 0 0).planner_position
            (sample_state ![0, 50000, 0] 0 0).target)._NEW = { x := fin 0, y := fin 0 }
      ∧ (Convert_Geometry unit_settings 37500 sample_direction_pin_mask
            (sample_state ![0, 50000, 0] 0 0)).target_steps X_AXIS
          = toInt (fin (-unit_settings.homing_x) * fin (unit_settings.steps_per_mm X_AXIS)) := by
  have hnone : ∀ i j, ¬ lt (Convert_Geometry.candidate unit_settings 37500
      (sample_state ![0, 50000, 0] 0 0).planner_position
      (sample_state ![0, 50000, 0] 0 0).target i j)._ERROR (fin 100000) := by
    intro i j
    show ¬ lt (Convert_Geometry.candidate unit_settings 37500 origin_steps
      ![0, 50000, 0] i j)._ERROR (fin 100000)
    rw [(Convert_Geometry.example_far i j).2.2]
    simp
  obtain ⟨-, h2, -, h4, -, -⟩ :=
    (search_sentinel unit_settings 37500 sample_direction_pin_mask
      (sample_state ![0, 50000, 0] 0 0)).2.2 hnone
  exact ⟨hnone, h2, h4⟩

/-- C20. For positive step resolutions, when the target in millimetres is the current
position, `Convert_Geometry` writes the step count 0 and the unit-vector entry 0 for
every axis, the path length 0, and leaves `direction_bits` as it came in. -/
theorem zero_move (settings : settings_t) (W : ℝ) (mask : Fin N_AXIS → ℕ) (st : State)
    (hX : 0 < settings.steps_per_mm X_AXIS) (hY : 0 < settings.steps_per_mm Y_AXIS)
    (htx : st.target X_AXIS
      = (st.planner_position X_AXIS : ℝ) / settings.steps_per_mm X_AXIS)
    (hty : st.target Y_AXIS
      = (st.planner_position Y_AXIS : ℝ) / settings.steps_per_mm Y_AXIS) :
    (∀ idx, (Convert_Geometry settings W mask st).block.steps idx = 0)
      ∧ (Convert_Geometry settings W mask st).block.millimeters = fin 0
      ∧ (∀ idx, (Convert_Geometry settings W mask st).unit_vec idx = fin 0)
      ∧ (Convert_Geometry settings W mask st).block.direction_bits
          = st.block.direction_bits := by
  have hX0 : settings.steps_per_mm X_AXIS ≠ 0 := hX.ne.symm
  have hY0 : settings.steps_per_mm Y_AXIS ≠ 0 := hY.ne.symm
  have hcont : ∀ m, contDelta settings W st.planner_position st.target m = 0 := by
    intro m
    have e1 : toX settings st.target = fromX settings st.planner_position := by
      simp [toX, fromX, htx]
    have e2 : toY settings st.target = fromY settings st.planner_position := by
      simp [toY, fromY, hty]
    unfold contDelta
    rw [e1, e2, sub_self]
  have hcount : ∀ m r, stepCount settings W st.planner_position st.target m r = 0 := by
    intro m r
    unfold stepCount
    rw [hcont]
    fin_cases r <;> simp
  have hd : Convert_Geometry.delta_mm settings W st.planner_position st.target X_AXIS = fin 0
      ∧ Convert_Geometry.delta_mm settings W st.planner_position st.target Y_AXIS
        = fin 0 := by
    rcases Convert_Geometry.search_cases settings W st.planner_position st.target with
      ⟨hs, -⟩ | ⟨i, j, -, had, -⟩
    · obtain ⟨cX, cY⟩ := Convert_Geometry.delta_mm_init settings W st.planner_position
        st.target hX0 hY0
      rw [hcont] at cX cY
      constructor
      · unfold Convert_Geometry.delta_mm
        rw [hs]
        exact cX
      · unfold Convert_Geometry.delta_mm
        rw [hs]
        exact cY
    · obtain ⟨dX, dY⟩ := Convert_Geometry.delta_mm_of_adopted settings W st.planner_position
        st.target i j hX0 hY0 had
      rw [hcount] at dX dY
      constructor
      · rw [dX]
        simp
      · rw [dY]
        simp
  have hz := Convert_Geometry.delta_mm_Z settings W st.planner_position st.target
  have hall : ∀ idx, Convert_Geometry.delta_mm settings W st.planner_position st.target idx
      = fin 0 := by
    intro idx
    rcases axis_cases idx with rfl | rfl | rfl
    · exact hd.1
    · exact hd.2
    · exact hz
  have t0 : truncR 0 = 0 := by
    have := truncR_intCast 0
    simpa using this
  refine ⟨fun idx => ?_, ?_, fun idx => ?_, ?_⟩
  · rw [Convert_Geometry.steps_eq, hall]
    simp [t0]
  · rw [Convert_Geometry.millimeters_eq, hall, hall, hall]
    simp only [fin_mul, fin_add]
    rw [sqrt_fin_of_nonneg (by norm_num)]
    norm_num
  · rw [Convert_Geometry.unit_vec_eq, hall]
  · rw [Convert_Geometry.direction_bits_eq, hall, hall]
    simp

/-- Witness of `zero_move`: one step per millimetre, current steps `(0, 0)`, target
`(0, 0)`, an incoming block with `direction_bits = 16`. -/
theorem zero_move_witness :
    (∀ idx, (Convert_Geometry unit_settings 6 sample_direction_pin_mask
          (sample_state ![0, 0, 0] 16 0)).block.steps idx = 0)
      ∧ (Convert_Geometry unit_settings 6 sample_direction_pin_mask
          (sample_state ![0, 0, 0] 16 0)).block.millimeters = fin 0
      ∧ (∀ idx, (Convert_Geometry unit_settings 6 sample_direction_pin_mask
          (sample_state ![0, 0, 0] 16 0)).unit_vec idx = fin 0)
      ∧ (Convert_Geometry unit_settings 6 sample_direction_pin_mask
          (sample_state ![0, 0, 0] 16 0)).block.direction_bits
          = (sample_state ![0, 0, 0] 16 0).block.direction_bits :=
  zero_move unit_settings 6 sample_direction_pin_mask (sample_state ![0, 0, 0] 16 0)
    (by simp [unit_settings]) (by simp [unit_settings])
    (by simp [sample_state, origin_steps]) (by simp [sample_state, origin_steps])

/-! ## The code under binary floating-point arithmetic -/

set_option maxRecDepth 1000000 in
/-- C17, the defect. Width 1000, home `(500, 0)`, 80 steps per millimetre, tracked
position `(-40000, -24000, 0)` (the machine-frame point `(0, 300)`), one forward step
on `X_AXIS`, in binary floating-point arithmetic. The machine-frame coordinates of the
old point are not negative; the lengths after the step, the `float`s
`to_M = (300.01251220703125, 1044.0306396484375)`, satisfy the triangle inequality with
the width and `to_M[1]^2 ≤ to_M[0]^2 + width^2`; the reconstructed abscissa is NaN and
so is `sys_position[X_AXIS]` after the call. -/
theorem tracked_step_below_M1_gives_nan :
    BFloat.le (BFloat.ofInt 0)
        (Geometry_system_position_ieee.from_p (settings_of_spm 80) below_M1_position).x = true
      ∧ BFloat.le (BFloat.ofInt 0)
        (Geometry_system_position_ieee.from_p (settings_of_spm 80) below_M1_position).y = true
      ∧ Geometry_system_position_ieee.to_M (settings_of_spm 80) width_1000 X_AXIS true
          below_M1_position X_AXIS = BFloat.fin 9830810 (-15)
      ∧ Geometry_system_position_ieee.to_M (settings_of_spm 80) width_1000 X_AXIS true
          below_M1_position Y_AXIS = BFloat.fin 8552699 (-13)
      ∧ BFloat.le width_1000
          (BFloat.sum (BFloat.fin 9830810 (-15)) (BFloat.fin 8552699 (-13))) = true
      ∧ BFloat.le (BFloat.fin 8552699 (-13))
          (BFloat.sum (BFloat.fin 9830810 (-15)) width_1000) = true
      ∧ BFloat.le (BFloat.fin 9830810 (-15))
          (BFloat.sum (BFloat.fin 8552699 (-13)) width_1000) = true
      ∧ BFloat.le (BFloat.prod (BFloat.fin 8552699 (-13)) (BFloat.fin 8552699 (-13)))
          (BFloat.sum (BFloat.prod (BFloat.fin 9830810 (-15)) (BFloat.fin 9830810 (-15)))
            (BFloat.prod width_1000 width_1000)) = true
      ∧ (Geometry_system_position_ieee.to_p (settings_of_spm 80) width_1000 X_AXIS true
          below_M1_position).x = BFloat.nan
      ∧ Geometry_system_position_ieee (settings_of_spm 80) width_1000 X_AXIS true
          below_M1_position X_AXIS = BFloat.nan := by
  decide

end VerticalPlotter
